import Mathlib

/-!
Verification of the HLSL front-end (wine d3dcompiler HLSL parser).

This file gives a shallow embedding, in Lean 4, of the parts of the HLSL
front-end that the verified properties talk about: the modifier algebra,
the type constructors, swizzle resolution, variable declaration and
initializer checking, array-dimension evaluation, control-flow lowering
for loops, the post-parse instruction indexer, and the liveness pass.
Definitions carry the names of the C functions they embed.  Functions of
the repository that live in a file not present here (the type-constructor
helpers of utils.c and the private header) are modelled from the
specification and are marked as such in their doc comments.
-/

namespace HLSLFrontEnd

/-! ## Diagnostics

The diagnostic sink collects messages tagged with a severity.  Message
text is modelled up to the printf formatting of names: a format such as
"modifier '%s' already specified" is embedded as its constant prefix.  -/

inductive HlslErrorLevel : Type where
  | error
  | warning
  | note
deriving DecidableEq

/-- Diag is the growable diagnostics buffer: a list of (level, message)
pairs, appended in program order. -/
abbrev Diag := List (HlslErrorLevel × String)

/-! ## Modifier algebra

Modelled from the spec: the numeric bit values of the modifier masks live
in the private header, which is not part of this repository; the spec
describes modifiers as a bitset of named storage / qualifier / majority
flags, so the DWORD is embedded as a record of Booleans, with the bitwise
operations of the C code becoming fieldwise operations. -/

structure Modifiers : Type where
  ext_mod : Bool := false
  nointerp_mod : Bool := false
  precise_mod : Bool := false
  shared_mod : Bool := false
  groupshared_mod : Bool := false
  static_mod : Bool := false
  uniform_mod : Bool := false
  volatile_mod : Bool := false
  const_mod : Bool := false
  row_major : Bool := false
  column_major : Bool := false
  in_mod : Bool := false
  out_mod : Bool := false
deriving DecidableEq

namespace Modifiers

/-- Bitwise or of two modifier DWORDs. -/
def union (a b : Modifiers) : Modifiers where
  ext_mod := a.ext_mod || b.ext_mod
  nointerp_mod := a.nointerp_mod || b.nointerp_mod
  precise_mod := a.precise_mod || b.precise_mod
  shared_mod := a.shared_mod || b.shared_mod
  groupshared_mod := a.groupshared_mod || b.groupshared_mod
  static_mod := a.static_mod || b.static_mod
  uniform_mod := a.uniform_mod || b.uniform_mod
  volatile_mod := a.volatile_mod || b.volatile_mod
  const_mod := a.const_mod || b.const_mod
  row_major := a.row_major || b.row_major
  column_major := a.column_major || b.column_major
  in_mod := a.in_mod || b.in_mod
  out_mod := a.out_mod || b.out_mod

/-- Bitwise and, used for mask tests. -/
def inter (a b : Modifiers) : Modifiers where
  ext_mod := a.ext_mod && b.ext_mod
  nointerp_mod := a.nointerp_mod && b.nointerp_mod
  precise_mod := a.precise_mod && b.precise_mod
  shared_mod := a.shared_mod && b.shared_mod
  groupshared_mod := a.groupshared_mod && b.groupshared_mod
  static_mod := a.static_mod && b.static_mod
  uniform_mod := a.uniform_mod && b.uniform_mod
  volatile_mod := a.volatile_mod && b.volatile_mod
  const_mod := a.const_mod && b.const_mod
  row_major := a.row_major && b.row_major
  column_major := a.column_major && b.column_major
  in_mod := a.in_mod && b.in_mod
  out_mod := a.out_mod && b.out_mod

/-- Bitwise and-not (m &= ~mask). -/
def diff (a b : Modifiers) : Modifiers where
  ext_mod := a.ext_mod && !b.ext_mod
  nointerp_mod := a.nointerp_mod && !b.nointerp_mod
  precise_mod := a.precise_mod && !b.precise_mod
  shared_mod := a.shared_mod && !b.shared_mod
  groupshared_mod := a.groupshared_mod && !b.groupshared_mod
  static_mod := a.static_mod && !b.static_mod
  uniform_mod := a.uniform_mod && !b.uniform_mod
  volatile_mod := a.volatile_mod && !b.volatile_mod
  const_mod := a.const_mod && !b.const_mod
  row_major := a.row_major && !b.row_major
  column_major := a.column_major && !b.column_major
  in_mod := a.in_mod && !b.in_mod
  out_mod := a.out_mod && !b.out_mod

/-- The all-zero DWORD. -/
def zero : Modifiers := {}

/-- Test (a & b) != 0, the C idiom for mask overlap. -/
def overlaps (a b : Modifiers) : Bool :=
  (a.ext_mod && b.ext_mod) || (a.nointerp_mod && b.nointerp_mod)
    || (a.precise_mod && b.precise_mod) || (a.shared_mod && b.shared_mod)
    || (a.groupshared_mod && b.groupshared_mod) || (a.static_mod && b.static_mod)
    || (a.uniform_mod && b.uniform_mod) || (a.volatile_mod && b.volatile_mod)
    || (a.const_mod && b.const_mod) || (a.row_major && b.row_major)
    || (a.column_major && b.column_major) || (a.in_mod && b.in_mod)
    || (a.out_mod && b.out_mod)

end Modifiers

/-- HLSL_MODIFIERS_MAJORITY_MASK: the two matrix-majority bits. -/
def HLSL_MODIFIERS_MAJORITY_MASK : Modifiers :=
  { row_major := true, column_major := true }

/-- HLSL_MODIFIER_ROW_MAJOR as a mask. -/
def HLSL_MODIFIER_ROW_MAJOR : Modifiers := { row_major := true }

/-- HLSL_MODIFIER_COLUMN_MAJOR as a mask. -/
def HLSL_MODIFIER_COLUMN_MAJOR : Modifiers := { column_major := true }

/-- HLSL_MODIFIER_CONST as a mask. -/
def HLSL_MODIFIER_CONST : Modifiers := { const_mod := true }

/-- HLSL_STORAGE_UNIFORM as a mask. -/
def HLSL_STORAGE_UNIFORM : Modifiers := { uniform_mod := true }

/-- HLSL_STORAGE_IN as a mask. -/
def HLSL_STORAGE_IN : Modifiers := { in_mod := true }

/-- HLSL_STORAGE_OUT as a mask. -/
def HLSL_STORAGE_OUT : Modifiers := { out_mod := true }

/-- HLSL_TYPE_MODIFIERS_MASK.  Modelled from the spec: the type-modifier
subset (the bits a typedef may carry) comprises the qualifier bits and
the matrix majority bits; the storage bits are excluded. -/
def HLSL_TYPE_MODIFIERS_MASK : Modifiers :=
  { precise_mod := true, volatile_mod := true, const_mod := true,
    row_major := true, column_major := true }

/-! ## Types -/

/-- Type classes, in the declaration order of the C enum; scalar, vector
and matrix are the numeric classes and HLSL_CLASS_LAST_NUMERIC aliases
matrix (modelled from the spec list, consistent with the comparisons
type <= HLSL_CLASS_LAST_NUMERIC and type > HLSL_CLASS_LAST_NUMERIC used
by declare_vars). -/
inductive TypeClass : Type where
  | scalar
  | vector
  | matrix
  | array
  | structClass
  | object
deriving DecidableEq

/-- Numeric value of the enum tag, used for the ordered comparisons of
the C code. -/
def TypeClass.toNat : TypeClass → Nat
  | .scalar => 0
  | .vector => 1
  | .matrix => 2
  | .array => 3
  | .structClass => 4
  | .object => 5

/-- HLSL_CLASS_LAST_NUMERIC = HLSL_CLASS_MATRIX. -/
def HLSL_CLASS_LAST_NUMERIC : Nat := TypeClass.matrix.toNat

/-- Base types (the object kinds are collapsed into one tag each; only
the numeric ones and void matter to the verified properties). -/
inductive BaseType : Type where
  | float
  | half
  | double
  | int
  | uint
  | bool
  | void
  | sampler
  | texture
  | pixelshader
  | vertexshader
  | string
deriving DecidableEq

/-- Matrix majority state of the compilation context
(hlsl_ctx.matrix_majority). -/
inductive MatrixMajority : Type where
  | HLSL_ROW_MAJOR
  | HLSL_COLUMN_MAJOR
deriving DecidableEq

mutual
/-- Embedding of struct hlsl_type.  Name strings and sampler dimensions
are dropped; the per-class payload (array element / struct fields) is in
TypeExtra. -/
inductive HlslType : Type where
  | mk (klass : TypeClass) (base_type : BaseType) (dimx dimy : Nat)
       (modifiers : Modifiers) (reg_size : Nat) (extra : TypeExtra)

inductive TypeExtra : Type where
  | noExtra
  | array (elem : HlslType) (elements_count : Nat)
  | structExtra (elements : FieldList)

inductive FieldList : Type where
  | nil
  | cons (fieldType : HlslType) (tl : FieldList)
end

deriving instance DecidableEq for HlslType, TypeExtra, FieldList

namespace HlslType

def klass : HlslType → TypeClass
  | .mk k _ _ _ _ _ _ => k

def base_type : HlslType → BaseType
  | .mk _ b _ _ _ _ _ => b

def dimx : HlslType → Nat
  | .mk _ _ x _ _ _ _ => x

def dimy : HlslType → Nat
  | .mk _ _ _ y _ _ _ => y

def modifiers : HlslType → Modifiers
  | .mk _ _ _ _ m _ _ => m

def reg_size : HlslType → Nat
  | .mk _ _ _ _ _ r _ => r

def extra : HlslType → TypeExtra
  | .mk _ _ _ _ _ _ e => e

def withModifiers : HlslType → Modifiers → HlslType
  | .mk k b x y _ r e, m => .mk k b x y m r e

def withRegSize : HlslType → Nat → HlslType
  | .mk k b x y m _ e, r => .mk k b x y m r e

end HlslType

/-- Modelled from the spec: new_hlsl_type (utils.c, not in this
repository) constructs a fresh type descriptor carrying the given class,
base type and dimensions, with no modifiers yet.  Only the matrix case of
reg_size is specified (row count if row-major, else column count; a fresh
type has no majority bit, hence dimx); the non-matrix footprint is taken
as the component count and is not relied upon. -/
def new_hlsl_type (klass : TypeClass) (base : BaseType) (dimx dimy : Nat) : HlslType :=
  .mk klass base dimx dimy Modifiers.zero
    (if klass = TypeClass.matrix then dimx else dimx * dimy) TypeExtra.noExtra

/-- Modelled from the spec: clone_hlsl_type (utils.c, not in this
repository) clones the type and overlays the given default-majority
modifier bits. -/
def clone_hlsl_type (t : HlslType) (default_majority : Modifiers) : HlslType :=
  t.withModifiers (t.modifiers.union default_majority)

/-- Modelled from the spec: new_array_type (utils.c, not in this
repository) builds array-of(basic_type, array_size); the array type
inherits the element type modifiers and its register footprint is the
element footprint times the count. -/
def new_array_type (basic_type : HlslType) (array_size : Nat) : HlslType :=
  .mk TypeClass.array basic_type.base_type 1 1 basic_type.modifiers
    (basic_type.reg_size * array_size) (TypeExtra.array basic_type array_size)

mutual
/-- Modelled from the spec: components_count_type (utils.c, not in this
repository) computes the total component count: dimx*dimy for the
numeric classes, element count times element components for arrays, and
the sum over fields for structs (objects count 0). -/
def components_count_type (t : HlslType) : Nat :=
  match t with
  | .mk k _ x y _ _ e =>
    if k.toNat ≤ HLSL_CLASS_LAST_NUMERIC then x * y
    else match e with
      | TypeExtra.array elem n => components_count_type elem * n
      | TypeExtra.structExtra fs => components_count_fields fs
      | TypeExtra.noExtra => 0

def components_count_fields (fs : FieldList) : Nat :=
  match fs with
  | FieldList.nil => 0
  | FieldList.cons t tl => components_count_type t + components_count_fields tl
end

/-- is_row_major: defaults to column-major when the majority is not
explicitly set. -/
def is_row_major (t : HlslType) : Bool :=
  t.modifiers.row_major

/-! ## Modifier application (add_modifiers, apply_type_modifiers) -/

/-- add_modifiers: merge one declared modifier into the accumulated set.
Re-specifying a present modifier, or giving a second matrix majority,
reports an error and leaves the set unchanged. -/
def add_modifiers (modifiers mod : Modifiers) (diag : Diag) : Modifiers × Diag :=
  if modifiers.overlaps mod then
    (modifiers, diag ++ [(HlslErrorLevel.error, "modifier already specified")])
  else if mod.overlaps HLSL_MODIFIERS_MAJORITY_MASK
      && modifiers.overlaps HLSL_MODIFIERS_MAJORITY_MASK then
    (modifiers, diag ++ [(HlslErrorLevel.error, "more than one matrix majority keyword")])
  else
    (modifiers.union mod, diag)

/-- apply_type_modifiers: overlay declared modifiers onto the declared
base type, injecting the context default majority for matrices when
neither the type nor the declaration specifies one.  Returns the type to
use, the leftover (storage) modifiers, and the diagnostics. -/
def apply_type_modifiers (type : HlslType) (modifiers : Modifiers)
    (ctxMajority : MatrixMajority) (diag : Diag) : HlslType × Modifiers × Diag :=
  let default_majority : Modifiers :=
    if !(modifiers.overlaps HLSL_MODIFIERS_MAJORITY_MASK)
        && !(type.modifiers.overlaps HLSL_MODIFIERS_MAJORITY_MASK)
        && type.klass = TypeClass.matrix then
      if ctxMajority = MatrixMajority.HLSL_COLUMN_MAJOR then HLSL_MODIFIER_COLUMN_MAJOR
      else HLSL_MODIFIER_ROW_MAJOR
    else Modifiers.zero
  if default_majority = Modifiers.zero
      && !(modifiers.overlaps HLSL_TYPE_MODIFIERS_MASK) then
    (type, modifiers, diag)
  else
    let cloned := clone_hlsl_type type default_majority
    let merged := add_modifiers cloned.modifiers modifiers diag
    let new_type := cloned.withModifiers merged.1
    let modifiers2 := modifiers.diff HLSL_TYPE_MODIFIERS_MASK
    let new_type :=
      if new_type.klass = TypeClass.matrix then
        new_type.withRegSize (if is_row_major new_type then new_type.dimy else new_type.dimx)
      else new_type
    (new_type, modifiers2, merged.2)

/-! ## Swizzle resolution (new_swizzle, get_swizzle) -/

/-- Result node of new_swizzle: the node data type plus the packed
swizzle mask (struct hlsl_ir_swizzle with the graph linkage dropped). -/
structure HlslIrSwizzle : Type where
  data_type : HlslType
  swizzle : Nat
deriving DecidableEq

/-- new_swizzle: the node type is always built with
new_hlsl_type(NULL, HLSL_CLASS_VECTOR, val->data_type->base_type,
components, 1); only the base type of the operand is read. -/
def new_swizzle (s : Nat) (components : Nat) (valType : HlslType) : HlslIrSwizzle :=
  { data_type := new_hlsl_type TypeClass.vector valType.base_type components 1,
    swizzle := s }

/-- Unsigned 32-bit value of the C expression (char1 - char2), whose
operands promote to int and whose result is stored into an unsigned int:
negative differences wrap around 2^32. -/
def char_minus (c d : Char) : Nat :=
  (((c.toNat : Int) - (d.toNat : Int)).emod 4294967296).toNat

/-- Outcome of one pass of the vector-swizzle scanning loop for one
letter set. -/
inductive VecScanResult : Type where
  | invalid (swiz : Nat)
  | outOfRange
  | ok (swiz : Nat) (component : Nat)
deriving DecidableEq

/-- One iteration set of the vector-swizzle loop of get_swizzle: walk the
suffix characters against one letter set, accumulating the packed mask;
a letter outside the set abandons this set (invalid), a component index
at or beyond dimx returns NULL from the whole function (outOfRange). -/
def vector_scan (letters : List Char) (dimx : Nat) :
    List Char → Nat → Nat → VecScanResult
  | [], swiz, component => VecScanResult.ok swiz component
  | ch :: rest, swiz, component =>
    match letters.findIdx? (fun c => c = ch) with
    | Option.none => VecScanResult.invalid swiz
    | Option.some s =>
      if dimx ≤ s then VecScanResult.outOfRange
      else vector_scan letters dimx rest (swiz ||| (s <<< (component * 2))) (component + 1)

/-- The matrix-swizzle chunk loop of get_swizzle: consume chunks of
"_mRC" (m_swizzle, zero-based) or "_RC" (one-based), checking each
coordinate against the matrix dimensions. -/
def matrix_scan (m_swizzle : Bool) (dimx dimy : Nat) :
    List Char → Nat → Nat → Option (Nat × Nat)
  | [], swiz, component => Option.some (swiz, component)
  | c0 :: rest, swiz, component =>
    if c0 ≠ '_' then Option.none
    else match m_swizzle, rest with
      | true, c1 :: c2 :: c3 :: rest2 =>
        if c1 ≠ 'm' then Option.none
        else
          let x := char_minus c2 '0'
          let y := char_minus c3 '0'
          if dimx ≤ x || dimy ≤ y then Option.none
          else matrix_scan true dimx dimy rest2
            (swiz ||| (((y <<< 4) ||| x) <<< (component * 8))) (component + 1)
      | false, c1 :: c2 :: rest2 =>
        let x := char_minus c1 '1'
        let y := char_minus c2 '1'
        if dimx ≤ x || dimy ≤ y then Option.none
        else matrix_scan false dimx dimy rest2
          (swiz ||| (((y <<< 4) ||| x) <<< (component * 8))) (component + 1)
      | _, _ => Option.none

/-- Letter set 0 of the vector swizzle. -/
def xyzwLetters : List Char := ['x', 'y', 'z', 'w']

/-- Letter set 1 of the vector swizzle. -/
def rgbaLetters : List Char := ['r', 'g', 'b', 'a']

/-- get_swizzle: resolve a dotted swizzle suffix against the operand
type, giving the result node or NULL.  The matrix path validates shape
and coordinates chunk-wise; the vector path tries the xyzw set and then
the rgba set, the accumulated mask carrying over between the two sets as
in the C (the sets are disjoint, so a carried mask can only occur on a
failing string). -/
def get_swizzle (value_type : HlslType) (swizzle : String) : Option HlslIrSwizzle :=
  let chars := swizzle.data
  let len := chars.length
  if value_type.klass = TypeClass.matrix then
    if len < 3 || chars[0]? ≠ Option.some '_' then Option.none
    else
      let m_swizzle := chars[1]? = Option.some 'm'
      let inc := if m_swizzle then 4 else 3
      if len % inc ≠ 0 || inc * 4 < len then Option.none
      else match matrix_scan m_swizzle value_type.dimx value_type.dimy chars 0 0 with
        | Option.some (swiz, component) =>
          Option.some (new_swizzle swiz component value_type)
        | Option.none => Option.none
  else
    if 4 < len then Option.none
    else match vector_scan xyzwLetters value_type.dimx chars 0 0 with
      | VecScanResult.ok swiz component =>
        Option.some (new_swizzle swiz component value_type)
      | VecScanResult.outOfRange => Option.none
      | VecScanResult.invalid swiz0 =>
        match vector_scan rgbaLetters value_type.dimx chars swiz0 0 with
        | VecScanResult.ok swiz component =>
          Option.some (new_swizzle swiz component value_type)
        | _ => Option.none

/-! ## The IR instruction graph

Every hlsl_ir_node is identified by a NodeId; cross-references between
nodes (expression operands, condition and return-value pointers, the
nodes named by a deref chain) are NodeIds of earlier instructions in the
stream.  The index field of every node and the next_index field of loops
start at 0 ("unused") and are filled in by index_instructions. -/

abbrev NodeId := Nat
abbrev VarId := Nat

/-- Deref chains (struct hlsl_deref): a direct variable reference, an
array access whose base is itself a deref, or a record access. -/
inductive Deref : Type where
  | var (v : VarId)
  | array (arrayDeref : Deref) (index : NodeId)
  | record (recordDeref : Deref)
deriving DecidableEq

/-- hlsl_var_from_deref: walk the chain of derefs and retrieve the
variable. -/
def hlsl_var_from_deref : Deref → VarId
  | Deref.var v => v
  | Deref.array a _ => hlsl_var_from_deref a
  | Deref.record r => hlsl_var_from_deref r

/-- Jump kinds (enum hlsl_ir_jump_type). -/
inductive JumpType : Type where
  | HLSL_IR_JUMP_BREAK
  | HLSL_IR_JUMP_CONTINUE
  | HLSL_IR_JUMP_RETURN
deriving DecidableEq

/-- Expression operator tags.  Only HLSL_IR_UNOP_LOGIC_NOT is referenced
by the embedded code (append_conditional_break); the remaining tags of
the enum are collapsed into otherOp. -/
inductive ExprOp : Type where
  | HLSL_IR_UNOP_LOGIC_NOT
  | otherOp (tag : Nat)
deriving DecidableEq

mutual
/-- Embedding of struct hlsl_ir_node, discriminated by kind.  Each
constructor carries the node id, the post-pass index, and the kind
payload; sub-expression references are NodeIds, while the statement
lists of if and loop nodes are held structurally. -/
inductive Node : Type where
  | assignment (id : NodeId) (index : Nat) (lhs : Deref) (rhs : NodeId)
  | constant (id : NodeId) (index : Nat)
  | constructorNode (id : NodeId) (index : Nat) (args : List NodeId)
  | derefNode (id : NodeId) (index : Nat) (src : Deref)
  | exprNode (id : NodeId) (index : Nat) (op : ExprOp)
      (op1 : NodeId) (op2 op3 : Option NodeId)
  | ifNode (id : NodeId) (index : Nat) (condition : NodeId)
      (then_instrs : InstrList) (else_instrs : OptInstrList)
  | jump (id : NodeId) (index : Nat) (jt : JumpType) (return_value : Option NodeId)
  | loop (id : NodeId) (index : Nat) (body : InstrList) (next_index : Nat)
  | swizzleNode (id : NodeId) (index : Nat) (val : NodeId)

/-- An instruction list (struct list of hlsl_ir_node entries). -/
inductive InstrList : Type where
  | nil
  | cons (hd : Node) (tl : InstrList)

/-- A possibly-NULL instruction list (the else_instrs pointer). -/
inductive OptInstrList : Type where
  | none
  | some (l : InstrList)
end

deriving instance DecidableEq for Node, InstrList, OptInstrList

/-- Node id accessor. -/
def Node.nodeId : Node → NodeId
  | Node.assignment i _ _ _ => i
  | Node.constant i _ => i
  | Node.constructorNode i _ _ => i
  | Node.derefNode i _ _ => i
  | Node.exprNode i _ _ _ _ _ => i
  | Node.ifNode i _ _ _ _ => i
  | Node.jump i _ _ _ => i
  | Node.loop i _ _ _ => i
  | Node.swizzleNode i _ _ => i

/-- Node index accessor. -/
def Node.nodeIndex : Node → Nat
  | Node.assignment _ n _ _ => n
  | Node.constant _ n => n
  | Node.constructorNode _ n _ => n
  | Node.derefNode _ n _ => n
  | Node.exprNode _ n _ _ _ _ => n
  | Node.ifNode _ n _ _ _ => n
  | Node.jump _ n _ _ => n
  | Node.loop _ n _ _ => n
  | Node.swizzleNode _ n _ => n

namespace InstrList

/-- Concatenation of instruction lists (list_move_tail of a whole list
onto the end of another). -/
def append : InstrList → InstrList → InstrList
  | InstrList.nil, l2 => l2
  | InstrList.cons h t, l2 => InstrList.cons h (append t l2)

/-- Emptiness test (list_count == 0 in the C). -/
def isNil : InstrList → Bool
  | InstrList.nil => true
  | InstrList.cons _ _ => false

/-- node_from_list: the last entry of the list (the result node of a
lowered expression). -/
def node_from_list : InstrList → Option Node
  | InstrList.nil => Option.none
  | InstrList.cons h InstrList.nil => Option.some h
  | InstrList.cons _ (InstrList.cons h t) => node_from_list (InstrList.cons h t)

end InstrList

/-! ## The post-pass instruction indexer (index_instructions) -/

mutual
/-- index_instructions: allocate a unique, ordered index to each
instruction, descending into if branches and loop bodies; a loop node
receives next_index = the counter value after its body.  Returns the
re-annotated list and the next free index. -/
def index_instructions : InstrList → Nat → InstrList × Nat
  | InstrList.nil, index => (InstrList.nil, index)
  | InstrList.cons instr rest, index =>
    let r1 := index_one_instruction instr index
    let r2 := index_instructions rest r1.2
    (InstrList.cons r1.1 r2.1, r2.2)

/-- Per-node step of index_instructions: assign index++ to the node,
then recurse into its sublists as the C body of the loop does. -/
def index_one_instruction : Node → Nat → Node × Nat
  | Node.assignment id _ lhs rhs, index => (Node.assignment id index lhs rhs, index + 1)
  | Node.constant id _, index => (Node.constant id index, index + 1)
  | Node.constructorNode id _ args, index => (Node.constructorNode id index args, index + 1)
  | Node.derefNode id _ src, index => (Node.derefNode id index src, index + 1)
  | Node.exprNode id _ op o1 o2 o3, index => (Node.exprNode id index op o1 o2 o3, index + 1)
  | Node.ifNode id _ cond t e, index =>
    let r1 := index_instructions t (index + 1)
    let r2 := index_optional e r1.2
    (Node.ifNode id index cond r1.1 r2.1, r2.2)
  | Node.jump id _ jt rv, index => (Node.jump id index jt rv, index + 1)
  | Node.loop id _ body _, index =>
    let r1 := index_instructions body (index + 1)
    (Node.loop id index r1.1 r1.2, r1.2)
  | Node.swizzleNode id _ v, index => (Node.swizzleNode id index v, index + 1)

/-- Indexing of a possibly-NULL else list ("if (iff->else_instrs)"). -/
def index_optional : OptInstrList → Nat → OptInstrList × Nat
  | OptInstrList.none, index => (OptInstrList.none, index)
  | OptInstrList.some l, index =>
    let r := index_instructions l index
    (OptInstrList.some r.1, r.2)
end

/-! ## Loop lowering (append_conditional_break, create_loop) -/

/-- Loop kinds of the grammar helper. -/
inductive LoopType : Type where
  | LOOP_FOR
  | LOOP_WHILE
  | LOOP_DO_WHILE
deriving DecidableEq

/-- Modelled from the spec: new_unary_expr (utils.c, not in this
repository) builds an expression node with the given operator whose
first operand references the given node. -/
def new_unary_expr (op : ExprOp) (arg : NodeId) (id : NodeId) : Node :=
  Node.exprNode id 0 op arg Option.none Option.none

/-- append_conditional_break: when the condition list is non-empty,
negate its result node with HLSL_IR_UNOP_LOGIC_NOT, wrap the negation in
an if whose then-branch is a single break jump, and append both to the
condition list; an empty condition list is returned unchanged (an
unconditional infinite loop).  The C allocates the three fresh nodes;
their identities are supplied here as notId, iffId, jumpId. -/
def append_conditional_break (cond : InstrList)
    (notId iffId jumpId : NodeId) : InstrList :=
  match cond.node_from_list with
  | Option.none => cond
  | Option.some condition =>
    let notNode := new_unary_expr ExprOp.HLSL_IR_UNOP_LOGIC_NOT condition.nodeId notId
    let jumpNode := Node.jump jumpId 0 JumpType.HLSL_IR_JUMP_BREAK Option.none
    let iffNode := Node.ifNode iffId 0 notId
      (InstrList.cons jumpNode InstrList.nil) OptInstrList.none
    cond.append (InstrList.cons notNode (InstrList.cons iffNode InstrList.nil))

/-- create_loop: lower while / do-while / for to the common loop shape.
The C builds the outer list, appends the loop node to it, and then moves
the condition (for non-do-while), the body, the iterator and finally the
condition (for do-while) into the loop body in place; the assembled body
is written here before the node is placed, which yields the same final
list.  The ids of the four fresh nodes are supplied as arguments. -/
def create_loop (loopType : LoopType) (init : Option InstrList) (cond : InstrList)
    (iter : Option InstrList) (body : InstrList)
    (notId iffId jumpId loopId : NodeId) : InstrList :=
  let outer := match init with
    | Option.none => InstrList.nil
    | Option.some l => l
  let cond2 := append_conditional_break cond notId iffId jumpId
  let b1 := if loopType ≠ LoopType.LOOP_DO_WHILE then cond2 else InstrList.nil
  let b2 := b1.append body
  let b3 := match iter with
    | Option.none => b2
    | Option.some it => b2.append it
  let b4 := if loopType = LoopType.LOOP_DO_WHILE then b3.append cond2 else b3
  outer.append (InstrList.cons (Node.loop loopId 0 b4 0) InstrList.nil)

/-! ## Array dimension evaluation (evaluate_array_dimension and the
array grammar action) -/

/-- Value stored in the constant union of an hlsl_ir_constant, paired
with the base type whose union member the code reads; float and double
payloads are modelled as rationals. -/
inductive ConstValue : Type where
  | uintVal (v : Nat)
  | intVal (v : Int)
  | floatVal (v : Rat)
  | doubleVal (v : Rat)
  | boolVal (v : Bool)
  | otherBase
deriving DecidableEq

/-- Conversion of a C int to unsigned int (wrap modulo 2^32). -/
def int_to_uint (v : Int) : Nat := (v.emod 4294967296).toNat

/-- Conversion of a C floating value to unsigned int: truncation toward
zero.  A negative or out-of-range source is undefined behaviour in C;
it is modelled as 0 below zero and wrapped above, and no verified
property depends on this corner. -/
def float_to_uint (v : Rat) : Nat :=
  if v < 0 then 0 else v.floor.toNat % 4294967296

/-- Shape of the node handed to evaluate_array_dimension: its node kind,
with the payload of a constant node inlined. -/
inductive ArrayDimNode : Type where
  | constant (value : ConstValue)
  | constructorNode
  | derefNode
  | exprNode
  | swizzleNode
  | assignment
  | otherKind
deriving DecidableEq

/-- evaluate_array_dimension: constant-fold the bracketed size
expression to an unsigned integer.  A non-scalar node, a non-constant
node (the FIXME and WARN paths) and a constant of non-numeric base all
yield 0. -/
def evaluate_array_dimension (klass : TypeClass) (node : ArrayDimNode) : Nat :=
  if klass ≠ TypeClass.scalar then 0
  else match node with
    | ArrayDimNode.constant value =>
      match value with
      | ConstValue.uintVal v => v % 4294967296
      | ConstValue.intVal v => int_to_uint v
      | ConstValue.floatVal v => float_to_uint v
      | ConstValue.doubleVal v => float_to_uint v
      | ConstValue.boolVal v => if v then 1 else 0
      | ConstValue.otherBase => 0
    | ArrayDimNode.constructorNode => 0
    | ArrayDimNode.derefNode => 0
    | ArrayDimNode.exprNode => 0
    | ArrayDimNode.swizzleNode => 0
    | ArrayDimNode.assignment => 0
    | ArrayDimNode.otherKind => 0

/-- Semantic action of the array grammar rule: evaluate the size, then
report and abort (YYABORT, modelled as none) when the folded size is 0
or exceeds 65536. -/
def array_rule_action (klass : TypeClass) (node : ArrayDimNode) (diag : Diag) :
    Option Nat × Diag :=
  let size := evaluate_array_dimension klass node
  if size = 0 then
    (Option.none,
     diag ++ [(HlslErrorLevel.error, "array size is not a positive integer constant\n")])
  else if size > 65536 then
    (Option.none,
     diag ++ [(HlslErrorLevel.error, "array size must be between 1 and 65536")])
  else (Option.some size, diag)

/-! ## Variable declaration (declare_vars) -/

/-- initializer_size: total component count of the initializer
arguments, each argument represented by its data type. -/
def initializer_size (args : List HlslType) : Nat :=
  match args with
  | [] => 0
  | t :: rest => components_count_type t + initializer_size rest

/-- Exit taken by the declare_vars loop body for one declarator; the
constructors are in the order of the exits in the C code. -/
inductive DeclOutcome : Type where
  | constNoInit
  | declareFailed
  | initNumericMismatch
  | initStructArrayMismatch
  | structInitialized
  | nonNumericUnsupported
  | arrayInitUnsupported
  | complexInitUnsupported
  | initialized
  | noInitializer
deriving DecidableEq

/-- Loop body of declare_vars for a single parse_variable_def, with the
scope machinery abstracted: isGlobal says whether the current scope is
the global scope, and declare_ok stands for the return value of
declare_variable (name-collision and local-modifier checking).  The
initializer is given by the data types of its argument nodes.  Returns
the exit taken and the diagnostics produced on the modelled path. -/
def declare_vars_one (basic_type : HlslType) (modifiers : Modifiers)
    (isGlobal : Bool) (declare_ok : Bool) (array_size : Nat)
    (initArgs : List HlslType) (diag : Diag) : DeclOutcome × Diag :=
  let type := if array_size ≠ 0 then new_array_type basic_type array_size else basic_type
  let varModifiers := if isGlobal then modifiers.union HLSL_STORAGE_UNIFORM else modifiers
  if type.modifiers.overlaps HLSL_MODIFIER_CONST
      && !(varModifiers.overlaps HLSL_STORAGE_UNIFORM)
      && initArgs.length = 0 then
    (DeclOutcome.constNoInit,
     diag ++ [(HlslErrorLevel.error, "const variable without initializer")])
  else if !declare_ok then
    (DeclOutcome.declareFailed, diag)
  else if initArgs.length ≠ 0 then
    let size := initializer_size initArgs
    if type.klass.toNat ≤ HLSL_CLASS_LAST_NUMERIC
        && type.dimx * type.dimy ≠ size && size ≠ 1
        && size < type.dimx * type.dimy then
      (DeclOutcome.initNumericMismatch,
       diag ++ [(HlslErrorLevel.error, "initializer does not match")])
    else if (type.klass = TypeClass.structClass || type.klass = TypeClass.array)
        && components_count_type type ≠ size then
      (DeclOutcome.initStructArrayMismatch,
       diag ++ [(HlslErrorLevel.error, "initializer does not match")])
    else if type.klass = TypeClass.structClass then
      (DeclOutcome.structInitialized, diag)
    else if HLSL_CLASS_LAST_NUMERIC < type.klass.toNat then
      (DeclOutcome.nonNumericUnsupported, diag)
    else if 0 < array_size then
      (DeclOutcome.arrayInitUnsupported, diag)
    else if 1 < initArgs.length then
      (DeclOutcome.complexInitUnsupported, diag)
    else
      (DeclOutcome.initialized, diag)
  else
    (DeclOutcome.noInitializer, diag)

/-! ## The liveness pass (compute_liveness, compute_liveness_recurse) -/

/-- UINT_MAX. -/
def UINT_MAX : Nat := 4294967295

/-- Liveness state: first_write and last_read per variable, last_read
per anonymous node, addressed by id. -/
structure LiveState : Type where
  varFirstWrite : VarId → Nat
  varLastRead : VarId → Nat
  nodeLastRead : NodeId → Nat

/-- Pointwise update of a liveness map. -/
def updMap (f : Nat → Nat) (k v : Nat) : Nat → Nat :=
  fun n => if n = k then v else f n

/-- Write instr->index into the last_read of every constructor argument,
in argument order. -/
def set_args_last_read (st : LiveState) (args : List NodeId) (index : Nat) : LiveState :=
  match args with
  | [] => st
  | a :: rest =>
    set_args_last_read { st with nodeLastRead := updMap st.nodeLastRead a index } rest index

mutual
/-- compute_liveness_recurse: compute the earliest and latest liveness
for each variable.  loop_first / loop_last are the extent of the
outermost enclosing loop, 0 when outside any loop. -/
def compute_liveness_recurse (instrs : InstrList) (loop_first loop_last : Nat)
    (st : LiveState) : LiveState :=
  match instrs with
  | InstrList.nil => st
  | InstrList.cons instr rest =>
    compute_liveness_recurse rest loop_first loop_last
      (liveness_instr instr loop_first loop_last st)

/-- Switch body of compute_liveness_recurse for one instruction. -/
def liveness_instr (instr : Node) (loop_first loop_last : Nat)
    (st : LiveState) : LiveState :=
  match instr with
  | Node.assignment _ index lhs rhs =>
    let var := hlsl_var_from_deref lhs
    let st1 :=
      if st.varFirstWrite var = 0 then
        { st with varFirstWrite := (updMap st.varFirstWrite var
            (if loop_first ≠ 0 then min index loop_first else index)) }
      else st
    { st1 with nodeLastRead := updMap st1.nodeLastRead rhs index }
  | Node.constant _ _ => st
  | Node.constructorNode _ index args => set_args_last_read st args index
  | Node.derefNode _ index src =>
    let var := hlsl_var_from_deref src
    let st1 := { st with varLastRead := (updMap st.varLastRead var
        (if loop_last ≠ 0 then max index loop_last else index)) }
    match src with
    | Deref.array _ idx => { st1 with nodeLastRead := updMap st1.nodeLastRead idx index }
    | _ => st1
  | Node.exprNode _ index _ o1 o2 o3 =>
    let st1 := { st with nodeLastRead := updMap st.nodeLastRead o1 index }
    let st2 := match o2 with
      | Option.none => st1
      | Option.some b => { st1 with nodeLastRead := updMap st1.nodeLastRead b index }
    match o3 with
    | Option.none => st2
    | Option.some c => { st2 with nodeLastRead := updMap st2.nodeLastRead c index }
  | Node.ifNode _ index cond t e =>
    let st1 := compute_liveness_recurse t loop_first loop_last st
    let st2 := liveness_optional e loop_first loop_last st1
    { st2 with nodeLastRead := updMap st2.nodeLastRead cond index }
  | Node.jump _ index jt rv =>
    match jt, rv with
    | JumpType.HLSL_IR_JUMP_RETURN, Option.some r =>
      { st with nodeLastRead := updMap st.nodeLastRead r index }
    | _, _ => st
  | Node.loop _ index body next_index =>
    compute_liveness_recurse body
      (if loop_first ≠ 0 then loop_first else index)
      (if loop_last ≠ 0 then loop_last else next_index) st
  | Node.swizzleNode _ index v =>
    { st with nodeLastRead := updMap st.nodeLastRead v index }

/-- Recursion into a possibly-NULL else list. -/
def liveness_optional (e : OptInstrList) (loop_first loop_last : Nat)
    (st : LiveState) : LiveState :=
  match e with
  | OptInstrList.none => st
  | OptInstrList.some l => compute_liveness_recurse l loop_first loop_last st
end

/-- A function parameter as the liveness pass sees it: its variable id
and its storage modifiers. -/
structure HlslParam : Type where
  id : VarId
  modifiers : Modifiers
deriving DecidableEq

/-- Initialization loop of compute_liveness over the global variables:
each gets first_write = 1. -/
def liveness_init_globals (st : LiveState) : List VarId → LiveState
  | [] => st
  | g :: rest =>
    liveness_init_globals { st with varFirstWrite := updMap st.varFirstWrite g 1 } rest

/-- Initialization loop of compute_liveness over the entry parameters:
input storage gets first_write = 1, output storage gets
last_read = UINT_MAX. -/
def liveness_init_params (st : LiveState) : List HlslParam → LiveState
  | [] => st
  | p :: rest =>
    let st1 :=
      if p.modifiers.overlaps HLSL_STORAGE_IN then
        { st with varFirstWrite := updMap st.varFirstWrite p.id 1 }
      else st
    let st2 :=
      if p.modifiers.overlaps HLSL_STORAGE_OUT then
        { st1 with varLastRead := updMap st1.varLastRead p.id UINT_MAX }
      else st1
    liveness_init_params st2 rest

/-- compute_liveness: seed the liveness of globals and entry parameters,
then walk the entry body with no enclosing loop. -/
def compute_liveness (globals : List VarId) (parameters : List HlslParam)
    (body : InstrList) (st : LiveState) : LiveState :=
  compute_liveness_recurse body 0 0
    (liveness_init_params (liveness_init_globals st globals) parameters)

/-! ## The top-level entry point (parse_hlsl) -/

/-- Parse status of the compilation context. -/
inductive ParseStatus : Type where
  | PARSE_SUCCESS
  | PARSE_WARN
  | PARSE_ERR
deriving DecidableEq

/-- The caller-visible shader object.  parse_hlsl is declared to return
a struct bwriter_shader pointer. -/
structure BwriterShader : Type where
  unit : Unit
deriving DecidableEq

/-- Entry function as parse_hlsl consumes it: the globals of the root
scope, the parameters, and the built body. -/
structure EntryFunc : Type where
  globals : List VarId
  parameters : List HlslParam
  body : InstrList

/-- Observable outcome of parse_hlsl: the indexed IR and the liveness
state it computed internally (both torn down before returning), and the
returned shader pointer. -/
structure ParseHlslResult : Type where
  indexed : Option InstrList
  liveness : Option LiveState
  shader : Option BwriterShader

/-- Initial liveness state (fields of freshly allocated variables and
nodes are zero). -/
def initialLiveState : LiveState :=
  { varFirstWrite := fun _ => 0, varLastRead := fun _ => 0, nodeLastRead := fun _ => 0 }

/-- parse_hlsl after hlsl_parse has run: on error status, or when the
entry point is not defined, jump to the cleanup path; otherwise index
the entry body starting at 2 (index 0 means unused, index 1 means
function entry), compute liveness, and fall through to the same cleanup
path.  Every path returns a NULL shader. -/
def parse_hlsl (status : ParseStatus) (entry_func : Option EntryFunc) : ParseHlslResult :=
  if status = ParseStatus.PARSE_ERR then
    { indexed := Option.none, liveness := Option.none, shader := Option.none }
  else match entry_func with
    | Option.none =>
      { indexed := Option.none, liveness := Option.none, shader := Option.none }
    | Option.some f =>
      let indexedBody := (index_instructions f.body 2).1
      let live := compute_liveness f.globals f.parameters indexedBody initialLiveState
      { indexed := Option.some indexedBody, liveness := Option.some live,
        shader := Option.none }

/-! ## Verification-side measures over the instruction graph

These definitions do not embed source code; they are the vocabulary in
which the indexing and liveness properties are stated: the total node
count of a subtree, the pre-order listing of assigned indices, a checker
for well-indexed trees, and syntactic search predicates for derefs and
loops. -/

mutual
/-- Total number of instructions in a list, counting the contents of if
branches and loop bodies. -/
def sizeL : InstrList → Nat
  | InstrList.nil => 0
  | InstrList.cons h t => sizeN h + sizeL t

/-- Total number of instructions rooted at one node. -/
def sizeN : Node → Nat
  | Node.ifNode _ _ _ t e => 1 + sizeL t + sizeO e
  | Node.loop _ _ b _ => 1 + sizeL b
  | _ => 1

/-- Total number of instructions of a possibly-NULL list. -/
def sizeO : OptInstrList → Nat
  | OptInstrList.none => 0
  | OptInstrList.some l => sizeL l
end

mutual
/-- The indices of a list of instructions in the traversal order of
index_instructions. -/
def preIdx : InstrList → List Nat
  | InstrList.nil => []
  | InstrList.cons h t => preIdxN h ++ preIdx t

/-- The indices of the subtree rooted at one node, in traversal order. -/
def preIdxN : Node → List Nat
  | Node.ifNode _ i _ t e => i :: (preIdx t ++ preIdxO e)
  | Node.loop _ i b _ => i :: preIdx b
  | Node.assignment _ i _ _ => [i]
  | Node.constant _ i => [i]
  | Node.constructorNode _ i _ => [i]
  | Node.derefNode _ i _ => [i]
  | Node.exprNode _ i _ _ _ _ => [i]
  | Node.jump _ i _ _ => [i]
  | Node.swizzleNode _ i _ => [i]

/-- The indices of a possibly-NULL list, in traversal order. -/
def preIdxO : OptInstrList → List Nat
  | OptInstrList.none => []
  | OptInstrList.some l => preIdx l
end

mutual
/-- Check of loop annotations in an indexed tree: every loop node must
carry next_index = its own index + 1 + the size of its body (the index
of the first instruction after the loop), and every index inside its
body must be smaller than next_index. -/
def loops_ok : InstrList → Bool
  | InstrList.nil => true
  | InstrList.cons h t => loops_ok_node h && loops_ok t

def loops_ok_node : Node → Bool
  | Node.ifNode _ _ _ t e => loops_ok t && loops_ok_opt e
  | Node.loop _ i b ni =>
    (ni = i + 1 + sizeL b) && (preIdx b).all (fun j => j < ni) && loops_ok b
  | _ => true

def loops_ok_opt : OptInstrList → Bool
  | OptInstrList.none => true
  | OptInstrList.some l => loops_ok l
end

mutual
/-- Well-indexedness checker: starting the counter at n, verify that
every node carries exactly the counter value of its traversal position
and that every loop carries next_index = the counter value after its
body; returns the final counter. -/
def check_indexed : InstrList → Nat → Option Nat
  | InstrList.nil, n => Option.some n
  | InstrList.cons h t, n =>
    match check_node h n with
    | Option.none => Option.none
    | Option.some m => check_indexed t m

def check_node : Node → Nat → Option Nat
  | Node.ifNode _ i _ t e, n =>
    if i = n then
      match check_indexed t (n + 1) with
      | Option.none => Option.none
      | Option.some m1 => check_opt e m1
    else Option.none
  | Node.loop _ i b ni, n =>
    if i = n then
      match check_indexed b (n + 1) with
      | Option.none => Option.none
      | Option.some m => if ni = m then Option.some m else Option.none
    else Option.none
  | x, n => if x.nodeIndex = n then Option.some (n + 1) else Option.none

def check_opt : OptInstrList → Nat → Option Nat
  | OptInstrList.none, n => Option.some n
  | OptInstrList.some l, n => check_indexed l n
end

mutual
/-- Syntactic search: does some deref instruction of variable v occur in
the list, descending into if branches and loop bodies? -/
def deref_of_var_in (v : VarId) : InstrList → Bool
  | InstrList.nil => false
  | InstrList.cons h t => deref_of_var_in_node v h || deref_of_var_in v t

def deref_of_var_in_node (v : VarId) : Node → Bool
  | Node.derefNode _ _ src => hlsl_var_from_deref src = v
  | Node.ifNode _ _ _ t e => deref_of_var_in v t || deref_of_var_in_opt v e
  | Node.loop _ _ b _ => deref_of_var_in v b
  | _ => false

def deref_of_var_in_opt (v : VarId) : OptInstrList → Bool
  | OptInstrList.none => false
  | OptInstrList.some l => deref_of_var_in v l
end

/-- Swizzle suffix used by concrete instances: a single x. -/
def suffix_x : String := "x"

/-- Swizzle suffix used by concrete instances: xy. -/
def suffix_xy : String := "xy"

mutual
/-- Syntactic search: does some loop node with next_index = e occur in
the list (at any depth) whose body contains a deref of variable v? -/
def loop_deref_witness (v : VarId) (e : Nat) : InstrList → Bool
  | InstrList.nil => false
  | InstrList.cons h t => loop_deref_witness_node v e h || loop_deref_witness v e t

def loop_deref_witness_node (v : VarId) (e : Nat) : Node → Bool
  | Node.loop _ _ b ni =>
    (decide (ni = e) && deref_of_var_in v b) || loop_deref_witness v e b
  | Node.ifNode _ _ _ t el => loop_deref_witness v e t || loop_deref_witness_opt v e el
  | _ => false

def loop_deref_witness_opt (v : VarId) (e : Nat) : OptInstrList → Bool
  | OptInstrList.none => false
  | OptInstrList.some l => loop_deref_witness v e l
end

/-! ## Helper lemmas -/

theorem overlaps_const_mask (m : Modifiers) :
    m.overlaps HLSL_MODIFIER_CONST = m.const_mod := by
  simp [Modifiers.overlaps, HLSL_MODIFIER_CONST]

theorem overlaps_uniform_mask (m : Modifiers) :
    m.overlaps HLSL_STORAGE_UNIFORM = m.uniform_mod := by
  simp [Modifiers.overlaps, HLSL_STORAGE_UNIFORM]

theorem overlaps_in_mask (m : Modifiers) :
    m.overlaps HLSL_STORAGE_IN = m.in_mod := by
  simp [Modifiers.overlaps, HLSL_STORAGE_IN]

theorem overlaps_out_mask (m : Modifiers) :
    m.overlaps HLSL_STORAGE_OUT = m.out_mod := by
  simp [Modifiers.overlaps, HLSL_STORAGE_OUT]

theorem overlaps_majority_mask (m : Modifiers) :
    m.overlaps HLSL_MODIFIERS_MAJORITY_MASK = (m.row_major || m.column_major) := by
  simp [Modifiers.overlaps, HLSL_MODIFIERS_MAJORITY_MASK]

theorem overlaps_type_modifiers_mask (m : Modifiers) :
    m.overlaps HLSL_TYPE_MODIFIERS_MASK
      = (m.precise_mod || m.volatile_mod || m.const_mod || m.row_major || m.column_major) := by
  simp [Modifiers.overlaps, HLSL_TYPE_MODIFIERS_MASK]

theorem new_array_type_modifiers (b : HlslType) (n : Nat) :
    (new_array_type b n).modifiers = b.modifiers := rfl

/-! ## C10: parse_hlsl never surfaces a shader object -/

/-- C10.  For every input, parse_hlsl returns a null shader pointer:
both the error path and the path on which indexing and liveness ran to
completion fall through to the cleanup code, whose only return value is
NULL.  The second conjunct certifies that on the success path the
indexing and liveness passes really were run before the null return. -/
theorem parse_hlsl_returns_null_shader :
    (∀ (status : ParseStatus) (entry : Option EntryFunc),
      (parse_hlsl status entry).shader = Option.none)
    ∧ (∀ f : EntryFunc,
      (parse_hlsl ParseStatus.PARSE_SUCCESS (Option.some f)).indexed
          = Option.some (index_instructions f.body 2).1
      ∧ (parse_hlsl ParseStatus.PARSE_SUCCESS (Option.some f)).liveness
          = Option.some (compute_liveness f.globals f.parameters
              (index_instructions f.body 2).1 initialLiveState)) := by
  constructor
  · intro status entry
    cases status <;> cases entry <;> rfl
  · intro f
    exact ⟨rfl, rfl⟩

/-! ## C5: liveness seeding of globals and parameters -/

theorem liveness_init_globals_keeps_one (gs : List VarId) (st : LiveState) (g : VarId)
    (h : st.varFirstWrite g = 1) :
    (liveness_init_globals st gs).varFirstWrite g = 1 := by
  induction gs generalizing st with
  | nil => exact h
  | cons a rest ih =>
    simp only [liveness_init_globals]
    apply ih
    simp only [updMap]
    split <;> simp [h]

theorem liveness_init_globals_sets (gs : List VarId) (st : LiveState) (g : VarId)
    (h : g ∈ gs) : (liveness_init_globals st gs).varFirstWrite g = 1 := by
  induction gs generalizing st with
  | nil => cases h
  | cons a rest ih =>
    rcases List.mem_cons.mp h with rfl | hm
    · simp only [liveness_init_globals]
      apply liveness_init_globals_keeps_one
      simp [updMap]
    · simp only [liveness_init_globals]
      exact ih _ hm

theorem liveness_init_params_keeps_fw (ps : List HlslParam) (st : LiveState) (x : VarId)
    (h : st.varFirstWrite x = 1) :
    (liveness_init_params st ps).varFirstWrite x = 1 := by
  induction ps generalizing st with
  | nil => exact h
  | cons p rest ih =>
    simp only [liveness_init_params]
    apply ih
    split <;> split <;> simp [updMap, h]

theorem liveness_init_params_keeps_lr (ps : List HlslParam) (st : LiveState) (x : VarId)
    (h : st.varLastRead x = UINT_MAX) :
    (liveness_init_params st ps).varLastRead x = UINT_MAX := by
  induction ps generalizing st with
  | nil => exact h
  | cons p rest ih =>
    simp only [liveness_init_params]
    apply ih
    split <;> split <;> simp [updMap, h]

theorem liveness_init_params_sets_in (ps : List HlslParam) (st : LiveState) (p : HlslParam)
    (hp : p ∈ ps) (hin : p.modifiers.overlaps HLSL_STORAGE_IN = true) :
    (liveness_init_params st ps).varFirstWrite p.id = 1 := by
  induction ps generalizing st with
  | nil => cases hp
  | cons q rest ih =>
    rcases List.mem_cons.mp hp with rfl | hm
    · simp only [liveness_init_params, hin]
      apply liveness_init_params_keeps_fw
      split <;> simp [updMap]
    · simp only [liveness_init_params]
      exact ih _ hm

theorem liveness_init_params_sets_out (ps : List HlslParam) (st : LiveState) (p : HlslParam)
    (hp : p ∈ ps) (hout : p.modifiers.overlaps HLSL_STORAGE_OUT = true) :
    (liveness_init_params st ps).varLastRead p.id = UINT_MAX := by
  induction ps generalizing st with
  | nil => cases hp
  | cons q rest ih =>
    rcases List.mem_cons.mp hp with rfl | hm
    · simp only [liveness_init_params, hout]
      apply liveness_init_params_keeps_lr
      simp [updMap]
    · simp only [liveness_init_params]
      exact ih _ hm

/-- C5.  On entry to the walk of compute_liveness (after the two seeding
loops and before compute_liveness_recurse runs), every global variable
has first_write = 1, every parameter with input storage has
first_write = 1, and every parameter with output storage has
last_read = UINT_MAX. -/
theorem compute_liveness_initial_seeding (globals : List VarId)
    (parameters : List HlslParam) (st : LiveState) :
    (∀ g ∈ globals,
      (liveness_init_params (liveness_init_globals st globals) parameters).varFirstWrite g = 1)
    ∧ (∀ p ∈ parameters, p.modifiers.overlaps HLSL_STORAGE_IN = true →
      (liveness_init_params (liveness_init_globals st globals) parameters).varFirstWrite p.id = 1)
    ∧ (∀ p ∈ parameters, p.modifiers.overlaps HLSL_STORAGE_OUT = true →
      (liveness_init_params (liveness_init_globals st globals) parameters).varLastRead p.id
        = UINT_MAX) := by
  refine ⟨fun g hg => ?_, fun p hp hin => ?_, fun p hp hout => ?_⟩
  · exact liveness_init_params_keeps_fw _ _ _ (liveness_init_globals_sets _ _ _ hg)
  · exact liveness_init_params_sets_in _ _ _ hp hin
  · exact liveness_init_params_sets_out _ _ _ hp hout

/-- Witness for C5 at a concrete seeding: one global (id 3), one input
parameter (id 4), one output parameter (id 5). -/
theorem compute_liveness_initial_seeding_witness :
    (liveness_init_params
        (liveness_init_globals initialLiveState [3])
        [HlslParam.mk 4 { in_mod := true }, HlslParam.mk 5 { out_mod := true }]).varFirstWrite 3 = 1
    ∧ (liveness_init_params
        (liveness_init_globals initialLiveState [3])
        [HlslParam.mk 4 { in_mod := true }, HlslParam.mk 5 { out_mod := true }]).varFirstWrite 4 = 1
    ∧ (liveness_init_params
        (liveness_init_globals initialLiveState [3])
        [HlslParam.mk 4 { in_mod := true }, HlslParam.mk 5 { out_mod := true }]).varLastRead 5
        = UINT_MAX := by
  refine ⟨?_, ?_, ?_⟩
  · exact (compute_liveness_initial_seeding [3] _ initialLiveState).1 3 (by decide)
  · exact (compute_liveness_initial_seeding [3]
      [HlslParam.mk 4 { in_mod := true }, HlslParam.mk 5 { out_mod := true }]
      initialLiveState).2.1 (HlslParam.mk 4 { in_mod := true }) (by decide) (by decide)
  · exact (compute_liveness_initial_seeding [3]
      [HlslParam.mk 4 { in_mod := true }, HlslParam.mk 5 { out_mod := true }]
      initialLiveState).2.2 (HlslParam.mk 5 { out_mod := true }) (by decide) (by decide)

/-! ## C9: array sizes are constant-folded and bounds-checked -/

/-- C9.  The array grammar action constant-folds the bracketed size
expression to an unsigned integer via evaluate_array_dimension; a folded
size of 0 (covering every value that is not a scalar positive integer
constant) is reported as "array size is not a positive integer constant"
and the declaration aborted (YYABORT); a folded size above 65536 is
reported as "array size must be between 1 and 65536" and aborted; any
other size is accepted unchanged with no diagnostic. -/
theorem array_rule_bounds (klass : TypeClass) (node : ArrayDimNode) (diag : Diag) :
    (evaluate_array_dimension klass node = 0 →
      array_rule_action klass node diag
        = (Option.none,
           diag ++ [(HlslErrorLevel.error, "array size is not a positive integer constant\n")]))
    ∧ (evaluate_array_dimension klass node ≠ 0 →
       65536 < evaluate_array_dimension klass node →
      array_rule_action klass node diag
        = (Option.none,
           diag ++ [(HlslErrorLevel.error, "array size must be between 1 and 65536")]))
    ∧ (evaluate_array_dimension klass node ≠ 0 →
       evaluate_array_dimension klass node ≤ 65536 →
      array_rule_action klass node diag
        = (Option.some (evaluate_array_dimension klass node), diag))
    ∧ ((array_rule_action klass node diag).1 = Option.none ↔
        (evaluate_array_dimension klass node = 0
          ∨ 65536 < evaluate_array_dimension klass node))
    ∧ (klass ≠ TypeClass.scalar → evaluate_array_dimension klass node = 0)
    ∧ ((∀ cv, node ≠ ArrayDimNode.constant cv) → evaluate_array_dimension klass node = 0) := by
  refine ⟨fun h0 => ?_, fun h0 hbig => ?_, fun h0 hsmall => ?_, ?_, fun hk => ?_, fun hnc => ?_⟩
  · simp [array_rule_action, h0]
  · simp only [array_rule_action]
    rw [if_neg h0]
    rw [if_pos (by omega)]
  · simp only [array_rule_action]
    rw [if_neg h0]
    rw [if_neg (by omega)]
  · simp only [array_rule_action]
    split
    · simp
      omega
    · split
      · simp
        omega
      · simp
        omega
  · simp [evaluate_array_dimension, hk]
  · unfold evaluate_array_dimension
    cases node with
    | constant cv => exact absurd rfl (hnc cv)
    | constructorNode => split <;> rfl
    | derefNode => split <;> rfl
    | exprNode => split <;> rfl
    | swizzleNode => split <;> rfl
    | assignment => split <;> rfl
    | otherKind => split <;> rfl

/-- Witness for C9: folding the constant 0 aborts with the
positive-integer error; folding 70000 aborts with the bound error;
folding 16 is accepted. -/
theorem array_rule_bounds_witness :
    array_rule_action TypeClass.scalar (ArrayDimNode.constant (ConstValue.uintVal 0)) []
      = (Option.none,
         [(HlslErrorLevel.error, "array size is not a positive integer constant\n")])
    ∧ array_rule_action TypeClass.scalar (ArrayDimNode.constant (ConstValue.intVal 70000)) []
      = (Option.none,
         [(HlslErrorLevel.error, "array size must be between 1 and 65536")])
    ∧ array_rule_action TypeClass.scalar (ArrayDimNode.constant (ConstValue.intVal 16)) []
      = (Option.some 16, []) := by
  refine ⟨?_, ?_, ?_⟩
  · exact (array_rule_bounds TypeClass.scalar
      (ArrayDimNode.constant (ConstValue.uintVal 0)) []).1 (by decide)
  · exact (array_rule_bounds TypeClass.scalar
      (ArrayDimNode.constant (ConstValue.intVal 70000)) []).2.1 (by decide) (by decide)
  · exact (array_rule_bounds TypeClass.scalar
      (ArrayDimNode.constant (ConstValue.intVal 16)) []).2.2.1 (by decide) (by decide)

/-! ## C8: const variables without uniform storage need an initializer -/

/-- C8.  A declarator whose declared type carries the const modifier,
whose variable storage (after the automatic uniform injection for
global-scope variables) does not include uniform, and which has no
initializer, is reported as "const variable without initializer" and the
loop continues before declare_variable runs, so the variable is not
declared. -/
theorem const_without_initializer_error (basic : HlslType) (modifiers : Modifiers)
    (isGlobal declare_ok : Bool) (array_size : Nat) (diag : Diag)
    (hconst : basic.modifiers.const_mod = true)
    (huni : (if isGlobal then modifiers.union HLSL_STORAGE_UNIFORM else modifiers).uniform_mod
        = false) :
    declare_vars_one basic modifiers isGlobal declare_ok array_size [] diag
      = (DeclOutcome.constNoInit,
         diag ++ [(HlslErrorLevel.error, "const variable without initializer")]) := by
  have htype : (if array_size ≠ 0 then new_array_type basic array_size
      else basic).modifiers.const_mod = true := by
    split <;> simp [new_array_type_modifiers, hconst]
  simp only [declare_vars_one]
  rw [if_pos]
  rw [overlaps_const_mask, htype, overlaps_uniform_mask, huni]
  simp

/-- Witness for C8: a local const int without initializer errors out. -/
theorem const_without_initializer_error_witness :
    declare_vars_one
      ((new_hlsl_type TypeClass.scalar BaseType.int 1 1).withModifiers { const_mod := true })
      Modifiers.zero false true 0 [] []
      = (DeclOutcome.constNoInit,
         [(HlslErrorLevel.error, "const variable without initializer")]) :=
  const_without_initializer_error
    ((new_hlsl_type TypeClass.scalar BaseType.int 1 1).withModifiers { const_mod := true })
    Modifiers.zero false true 0 [] (by decide) (by decide)

/-! ## C3: loop lowering shape -/

/-- C3.  create_loop produces, for the grammar call sites, an outer list
holding the for-initializer (when present) followed by exactly one loop
node; the loop body is, in order, the condition-break block then the
user body then the iterator for while/for, and the user body then the
condition-break block for do-while; append_conditional_break leaves an
empty condition list untouched (unconditional infinite loop) and
otherwise appends the HLSL_IR_UNOP_LOGIC_NOT negation of the condition
result node followed by an if on that negation whose then-branch is a
single break jump. -/
theorem create_loop_shapes (cond body initL iterL : InstrList)
    (notId iffId jumpId loopId : NodeId) :
    create_loop LoopType.LOOP_WHILE Option.none cond Option.none body
        notId iffId jumpId loopId
      = InstrList.cons
          (Node.loop loopId 0
            ((append_conditional_break cond notId iffId jumpId).append body) 0)
          InstrList.nil
    ∧ create_loop LoopType.LOOP_DO_WHILE Option.none cond Option.none body
        notId iffId jumpId loopId
      = InstrList.cons
          (Node.loop loopId 0
            (body.append (append_conditional_break cond notId iffId jumpId)) 0)
          InstrList.nil
    ∧ create_loop LoopType.LOOP_FOR (Option.some initL) cond (Option.some iterL) body
        notId iffId jumpId loopId
      = initL.append (InstrList.cons
          (Node.loop loopId 0
            (((append_conditional_break cond notId iffId jumpId).append body).append iterL) 0)
          InstrList.nil)
    ∧ (cond = InstrList.nil → append_conditional_break cond notId iffId jumpId = cond)
    ∧ (∀ c, cond.node_from_list = Option.some c →
        append_conditional_break cond notId iffId jumpId
          = cond.append (InstrList.cons
              (Node.exprNode notId 0 ExprOp.HLSL_IR_UNOP_LOGIC_NOT c.nodeId
                Option.none Option.none)
              (InstrList.cons
                (Node.ifNode iffId 0 notId
                  (InstrList.cons
                    (Node.jump jumpId 0 JumpType.HLSL_IR_JUMP_BREAK Option.none)
                    InstrList.nil)
                  OptInstrList.none)
                InstrList.nil))) := by
  refine ⟨rfl, rfl, rfl, fun h => ?_, fun c hc => ?_⟩
  · subst h
    rfl
  · simp only [append_conditional_break, hc]
    rfl

/-- Witness for C3 on a concrete one-node condition list. -/
theorem create_loop_shapes_witness :
    append_conditional_break (InstrList.cons (Node.constant 5 0) InstrList.nil) 6 7 8
      = InstrList.cons (Node.constant 5 0)
          (InstrList.cons
            (Node.exprNode 6 0 ExprOp.HLSL_IR_UNOP_LOGIC_NOT 5 Option.none Option.none)
            (InstrList.cons
              (Node.ifNode 7 0 6
                (InstrList.cons
                  (Node.jump 8 0 JumpType.HLSL_IR_JUMP_BREAK Option.none)
                  InstrList.nil)
                OptInstrList.none)
              InstrList.nil)) :=
  (create_loop_shapes (InstrList.cons (Node.constant 5 0) InstrList.nil)
    InstrList.nil InstrList.nil InstrList.nil 6 7 8 9).2.2.2.2
    (Node.constant 5 0) rfl

/-! ## C4: vector swizzle result types -/

theorem vector_scan_ok_length (letters : List Char) (dimx : Nat) (chars : List Char)
    (swiz comp swiz2 comp2 : Nat)
    (h : vector_scan letters dimx chars swiz comp = VecScanResult.ok swiz2 comp2) :
    comp2 = comp + chars.length := by
  induction chars generalizing swiz comp with
  | nil =>
    simp only [vector_scan] at h
    cases h
    simp
  | cons c rest ih =>
    rcases hf : letters.findIdx? (fun x => x = c) with _ | s
    · simp only [vector_scan, hf] at h
      cases h
    · simp only [vector_scan, hf] at h
      by_cases hs : dimx ≤ s
      · rw [if_pos hs] at h
        cases h
      · rw [if_neg hs] at h
        have := ih _ _ h
        simp only [List.length_cons]
        omega

/-- C4 (amended).  For every valid vector swizzle of length k the
result node type carries the operand base type with dimx = k and
dimy = 1, and its class is always HLSL_CLASS_VECTOR: new_swizzle builds
the type with HLSL_CLASS_VECTOR unconditionally, so a one-character
swizzle yields a one-component vector type, not a scalar type. -/
theorem get_swizzle_vector_result_type (t : HlslType) (s : String) (sw : HlslIrSwizzle)
    (hk : t.klass ≠ TypeClass.matrix) (h : get_swizzle t s = Option.some sw) :
    sw.data_type.klass = TypeClass.vector
    ∧ sw.data_type.base_type = t.base_type
    ∧ sw.data_type.dimx = s.length
    ∧ sw.data_type.dimy = 1 := by
  simp only [get_swizzle, if_neg hk] at h
  by_cases hlen : 4 < s.data.length
  · rw [if_pos hlen] at h
    cases h
  · rw [if_neg hlen] at h
    cases h1 : vector_scan xyzwLetters t.dimx s.data 0 0 with
    | invalid sw0 =>
      simp only [h1] at h
      cases h2 : vector_scan rgbaLetters t.dimx s.data sw0 0 with
      | invalid sw1 =>
        simp only [h2] at h
        cases h
      | outOfRange =>
        simp only [h2] at h
        cases h
      | ok swz comp =>
        simp only [h2, Option.some.injEq] at h
        subst h
        have hc := vector_scan_ok_length _ _ _ _ _ _ _ h2
        refine ⟨rfl, rfl, ?_, rfl⟩
        simp only [new_swizzle, new_hlsl_type, HlslType.dimx]
        rw [hc, Nat.zero_add]
        rfl
    | outOfRange =>
      simp only [h1] at h
      cases h
    | ok swz comp =>
      simp only [h1, Option.some.injEq] at h
      subst h
      have hc := vector_scan_ok_length _ _ _ _ _ _ _ h1
      refine ⟨rfl, rfl, ?_, rfl⟩
      simp only [new_swizzle, new_hlsl_type, HlslType.dimx]
      rw [hc, Nat.zero_add]
      rfl

/-- Witness for C4 (amended) at the concrete swizzle float4.xy: a
two-component float vector. -/
theorem get_swizzle_vector_result_type_witness :
    (new_swizzle 4 2 (new_hlsl_type TypeClass.vector BaseType.float 4 1)).data_type.klass
        = TypeClass.vector
    ∧ (new_swizzle 4 2 (new_hlsl_type TypeClass.vector BaseType.float 4 1)).data_type.base_type
        = (new_hlsl_type TypeClass.vector BaseType.float 4 1).base_type
    ∧ (new_swizzle 4 2 (new_hlsl_type TypeClass.vector BaseType.float 4 1)).data_type.dimx
        = suffix_xy.length
    ∧ (new_swizzle 4 2 (new_hlsl_type TypeClass.vector BaseType.float 4 1)).data_type.dimy
        = 1 :=
  get_swizzle_vector_result_type (new_hlsl_type TypeClass.vector BaseType.float 4 1)
    suffix_xy (new_swizzle 4 2 (new_hlsl_type TypeClass.vector BaseType.float 4 1))
    (by decide) (by decide)

/-- Counterexample to C4 as stated: the single-component swizzle
float4.x produces a node whose type class is HLSL_CLASS_VECTOR (with
dimx = 1), not a scalar type as the claim asserts for k = 1. -/
theorem get_swizzle_single_component_is_vector_class :
    get_swizzle (new_hlsl_type TypeClass.vector BaseType.float 4 1) suffix_x
      = Option.some (new_swizzle 0 1 (new_hlsl_type TypeClass.vector BaseType.float 4 1))
    ∧ suffix_x.length = 1
    ∧ (new_swizzle 0 1 (new_hlsl_type TypeClass.vector BaseType.float 4 1)).data_type.klass
        = TypeClass.vector
    ∧ (new_swizzle 0 1 (new_hlsl_type TypeClass.vector BaseType.float 4 1)).data_type.klass
        ≠ TypeClass.scalar := by
  refine ⟨by decide, by decide, rfl, by decide⟩

/-! ## C7: initializer component-count checking -/

/-- C7 (amended).  For a declarator of numeric class (scalar, vector or
matrix, no array suffix) that passed the const check and was declared,
the initializer size check reports "initializer does not match" and
skips the initialization exactly when the total component count of the
initializer is below the type component count and not 1; an equal count,
a single-component count, or an oversized count passes the check with no
diagnostic, after which a single-argument initializer is lowered to an
assignment and a multi-argument one is dropped as unimplemented (without
an error). -/
theorem declare_vars_initializer_size_check (basic : HlslType) (modifiers : Modifiers)
    (isGlobal : Bool) (args : List HlslType) (diag : Diag)
    (hnum : basic.klass.toNat ≤ HLSL_CLASS_LAST_NUMERIC)
    (hargs : args ≠ []) :
    (initializer_size args < basic.dimx * basic.dimy → initializer_size args ≠ 1 →
      declare_vars_one basic modifiers isGlobal true 0 args diag
        = (DeclOutcome.initNumericMismatch,
           diag ++ [(HlslErrorLevel.error, "initializer does not match")]))
    ∧ (¬(initializer_size args < basic.dimx * basic.dimy ∧ initializer_size args ≠ 1) →
      ((declare_vars_one basic modifiers isGlobal true 0 args diag).2 = diag
      ∧ (args.length = 1 →
          (declare_vars_one basic modifiers isGlobal true 0 args diag).1
            = DeclOutcome.initialized)
      ∧ (1 < args.length →
          (declare_vars_one basic modifiers isGlobal true 0 args diag).1
            = DeclOutcome.complexInitUnsupported))) := by
  have hlen : args.length ≠ 0 := by
    intro h0
    exact hargs (List.length_eq_zero.mp h0)
  have hks : basic.klass = TypeClass.scalar ∨ basic.klass = TypeClass.vector
      ∨ basic.klass = TypeClass.matrix := by
    cases hbk : basic.klass <;> simp_all [TypeClass.toNat, HLSL_CLASS_LAST_NUMERIC]
  have hns : basic.klass ≠ TypeClass.structClass := by
    rcases hks with h | h | h <;> simp [h]
  have hna : basic.klass ≠ TypeClass.array := by
    rcases hks with h | h | h <;> simp [h]
  have hng : ¬(HLSL_CLASS_LAST_NUMERIC < basic.klass.toNat) := Nat.not_lt.mpr hnum
  constructor
  · intro hlt hne
    have hB : basic.dimx * basic.dimy ≠ initializer_size args := by omega
    simp [declare_vars_one, hlen, hnum, hB, hne, hlt]
  · intro hnot
    have hmain : ∀ out2,
        (out2 = (if 1 < args.length then DeclOutcome.complexInitUnsupported
                 else DeclOutcome.initialized)) →
        declare_vars_one basic modifiers isGlobal true 0 args diag = (out2, diag) := by
      intro out2 hout
      subst hout
      by_cases hlt : initializer_size args < basic.dimx * basic.dimy
      · have h1s : initializer_size args = 1 := by
          by_contra hc
          exact hnot ⟨hlt, hc⟩
        simp only [declare_vars_one]
        simp [hlen, hns, hna, hng, h1s]
        split <;> rfl
      · simp only [declare_vars_one]
        simp [hlen, hns, hna, hng, hlt]
        split <;> rfl
    refine ⟨?_, fun h1 => ?_, fun h1 => ?_⟩
    · rw [hmain _ rfl]
    · rw [hmain _ rfl]
      simp [Nat.lt_irrefl, h1]
    · rw [hmain _ rfl]
      simp [h1]

/-- Witness for C7 (amended): float v = 1.0 style single-component
initialization of a scalar is lowered; a two-component initializer on a
four-component type errors. -/
theorem declare_vars_initializer_size_check_witness :
    declare_vars_one (new_hlsl_type TypeClass.scalar BaseType.float 1 1) Modifiers.zero
        false true 0 [new_hlsl_type TypeClass.scalar BaseType.float 1 1] []
      = (DeclOutcome.initialized, [])
    ∧ declare_vars_one (new_hlsl_type TypeClass.vector BaseType.float 4 1) Modifiers.zero
        false true 0 [new_hlsl_type TypeClass.vector BaseType.float 2 1] []
      = (DeclOutcome.initNumericMismatch,
         [(HlslErrorLevel.error, "initializer does not match")]) := by
  constructor
  · have h := (declare_vars_initializer_size_check
      (new_hlsl_type TypeClass.scalar BaseType.float 1 1) Modifiers.zero false
      [new_hlsl_type TypeClass.scalar BaseType.float 1 1] []
      (by decide) (by decide)).2 (by decide)
    have h1 := h.2.1 (by decide)
    have h2 := h.1
    rcases hd : declare_vars_one (new_hlsl_type TypeClass.scalar BaseType.float 1 1)
        Modifiers.zero false true 0
        [new_hlsl_type TypeClass.scalar BaseType.float 1 1] [] with ⟨a, b⟩
    rw [hd] at h1 h2
    simp only at h1 h2
    rw [h1, h2]
  · exact (declare_vars_initializer_size_check
      (new_hlsl_type TypeClass.vector BaseType.float 4 1) Modifiers.zero false
      [new_hlsl_type TypeClass.vector BaseType.float 2 1] []
      (by decide) (by decide)).1 (by decide) (by decide)

/-- Counterexample to C7 as stated: an oversized initializer (total
component count 4 on a two-component type, neither equal nor 1) is NOT
reported as an error; the check only fires for undersized counts, and
the single-argument oversized initializer is still lowered. -/
theorem declare_vars_oversized_initializer_accepted :
    declare_vars_one (new_hlsl_type TypeClass.vector BaseType.float 2 1) Modifiers.zero
        false true 0 [new_hlsl_type TypeClass.vector BaseType.float 4 1] []
      = (DeclOutcome.initialized, [])
    ∧ initializer_size [new_hlsl_type TypeClass.vector BaseType.float 4 1] = 4
    ∧ (new_hlsl_type TypeClass.vector BaseType.float 2 1).dimx
        * (new_hlsl_type TypeClass.vector BaseType.float 2 1).dimy = 2
    ∧ (4 : Nat) ≠ 2 ∧ (4 : Nat) ≠ 1 := by
  refine ⟨by decide, by decide, by decide, by decide, by decide⟩

/-! ## C6: matrix majority invariant -/

theorem modifiers_union_zero (m : Modifiers) : m.union Modifiers.zero = m := by
  cases m
  simp [Modifiers.union, Modifiers.zero]

theorem bool_xor_of_distinct (a b : Bool) (h1 : (a && b) = false) (h2 : (a || b) = true) :
    (a ^^ b) = true := by
  cases a <;> cases b <;> simp_all

theorem add_modifiers_no_error (m mod : Modifiers) (diag : Diag)
    (h : (add_modifiers m mod diag).2 = diag) :
    (add_modifiers m mod diag).1 = m.union mod
    ∧ m.overlaps mod = false
    ∧ (mod.overlaps HLSL_MODIFIERS_MAJORITY_MASK
        && m.overlaps HLSL_MODIFIERS_MAJORITY_MASK) = false := by
  unfold add_modifiers at h ⊢
  split_ifs at h ⊢ with h1 h2
  · exfalso
    have := congrArg List.length h
    simp at this
  · exfalso
    have := congrArg List.length h
    simp at this
  · exact ⟨rfl, Bool.eq_false_iff.mpr h1, Bool.eq_false_iff.mpr h2⟩

theorem withModifiers_modifiers (t : HlslType) (m : Modifiers) :
    (t.withModifiers m).modifiers = m := by
  cases t
  rfl

theorem withModifiers_withModifiers (t : HlslType) (m1 m2 : Modifiers) :
    (t.withModifiers m1).withModifiers m2 = t.withModifiers m2 := by
  cases t
  rfl

/-- Reduction of apply_type_modifiers when no default majority is
injected and the declared modifiers carry type-modifier bits (the clone
path with a zero overlay). -/
theorem apply_type_modifiers_clone_zero (t : HlslType) (mods : Modifiers) (diag : Diag)
    (hd : (!(mods.overlaps HLSL_MODIFIERS_MAJORITY_MASK)
        && !(t.modifiers.overlaps HLSL_MODIFIERS_MAJORITY_MASK)
        && decide (t.klass = TypeClass.matrix)) = false)
    (hty : mods.overlaps HLSL_TYPE_MODIFIERS_MASK = true) :
    apply_type_modifiers t mods MatrixMajority.HLSL_COLUMN_MAJOR diag
      = ((if (t.withModifiers (add_modifiers t.modifiers mods diag).1).klass
            = TypeClass.matrix then
          (t.withModifiers (add_modifiers t.modifiers mods diag).1).withRegSize
            (if is_row_major (t.withModifiers (add_modifiers t.modifiers mods diag).1) = true
             then (t.withModifiers (add_modifiers t.modifiers mods diag).1).dimy
             else (t.withModifiers (add_modifiers t.modifiers mods diag).1).dimx)
         else t.withModifiers (add_modifiers t.modifiers mods diag).1),
         mods.diff HLSL_TYPE_MODIFIERS_MASK,
         (add_modifiers t.modifiers mods diag).2) := by
  simp only [apply_type_modifiers]
  rw [hd]
  simp [clone_hlsl_type, modifiers_union_zero, withModifiers_modifiers,
    withModifiers_withModifiers, hty]

/-- Reduction of apply_type_modifiers when no default majority is
injected and the declared modifiers carry no type-modifier bits (the
early return). -/
theorem apply_type_modifiers_early (t : HlslType) (mods : Modifiers) (diag : Diag)
    (hd : (!(mods.overlaps HLSL_MODIFIERS_MAJORITY_MASK)
        && !(t.modifiers.overlaps HLSL_MODIFIERS_MAJORITY_MASK)
        && decide (t.klass = TypeClass.matrix)) = false)
    (hty : mods.overlaps HLSL_TYPE_MODIFIERS_MASK = false) :
    apply_type_modifiers t mods MatrixMajority.HLSL_COLUMN_MAJOR diag
      = (t, mods, diag) := by
  simp only [apply_type_modifiers]
  rw [hd]
  simp [hty]

/-- Reduction of apply_type_modifiers when the column-major default is
injected (matrix type, no majority on either side). -/
theorem apply_type_modifiers_default_col (t : HlslType) (mods : Modifiers) (diag : Diag)
    (hd : (!(mods.overlaps HLSL_MODIFIERS_MAJORITY_MASK)
        && !(t.modifiers.overlaps HLSL_MODIFIERS_MAJORITY_MASK)
        && decide (t.klass = TypeClass.matrix)) = true) :
    apply_type_modifiers t mods MatrixMajority.HLSL_COLUMN_MAJOR diag
      = ((if (t.withModifiers (add_modifiers
              (t.modifiers.union HLSL_MODIFIER_COLUMN_MAJOR) mods diag).1).klass
            = TypeClass.matrix then
          (t.withModifiers (add_modifiers
              (t.modifiers.union HLSL_MODIFIER_COLUMN_MAJOR) mods diag).1).withRegSize
            (if is_row_major (t.withModifiers (add_modifiers
                  (t.modifiers.union HLSL_MODIFIER_COLUMN_MAJOR) mods diag).1) = true
             then (t.withModifiers (add_modifiers
                  (t.modifiers.union HLSL_MODIFIER_COLUMN_MAJOR) mods diag).1).dimy
             else (t.withModifiers (add_modifiers
                  (t.modifiers.union HLSL_MODIFIER_COLUMN_MAJOR) mods diag).1).dimx)
         else t.withModifiers (add_modifiers
              (t.modifiers.union HLSL_MODIFIER_COLUMN_MAJOR) mods diag).1),
         mods.diff HLSL_TYPE_MODIFIERS_MASK,
         (add_modifiers (t.modifiers.union HLSL_MODIFIER_COLUMN_MAJOR) mods diag).2) := by
  simp only [apply_type_modifiers]
  rw [hd]
  rw [if_pos rfl]
  rw [if_neg (by simp [HLSL_MODIFIER_COLUMN_MAJOR, Modifiers.zero])]
  simp [clone_hlsl_type, withModifiers_modifiers, withModifiers_withModifiers]

/-- C6.  (a) add_modifiers reports "more than one matrix majority
keyword" when a majority modifier is added to a set already carrying the
other majority.  (b) On every error-free run of apply_type_modifiers
under the compilation default HLSL_COLUMN_MAJOR, a matrix declaration
type carries exactly one majority bit (with column-major injected when
neither the base type nor the declared modifiers specify one), and its
reg_size equals dimy when row-major and dimx otherwise. -/
theorem matrix_majority_invariant :
    (∀ (m mod : Modifiers) (diag : Diag),
      m.overlaps mod = false →
      mod.overlaps HLSL_MODIFIERS_MAJORITY_MASK = true →
      m.overlaps HLSL_MODIFIERS_MAJORITY_MASK = true →
      add_modifiers m mod diag
        = (m, diag ++ [(HlslErrorLevel.error, "more than one matrix majority keyword")]))
    ∧ (∀ (t : HlslType) (mods : Modifiers) (diag : Diag)
        (res : HlslType × Modifiers × Diag),
      (t.modifiers.row_major && t.modifiers.column_major) = false →
      (mods.row_major && mods.column_major) = false →
      (t.klass = TypeClass.matrix →
        (t.modifiers.row_major || t.modifiers.column_major) = true →
        t.reg_size = (if is_row_major t = true then t.dimy else t.dimx)) →
      apply_type_modifiers t mods MatrixMajority.HLSL_COLUMN_MAJOR diag = res →
      res.2.2 = diag →
      t.klass = TypeClass.matrix →
      ((res.1.modifiers.row_major ^^ res.1.modifiers.column_major) = true
       ∧ res.1.reg_size
          = (if is_row_major res.1 = true then res.1.dimy else res.1.dimx)
       ∧ ((t.modifiers.row_major || t.modifiers.column_major) = false →
          (mods.row_major || mods.column_major) = false →
          res.1.modifiers.column_major = true))) := by
  constructor
  · intro m mod diag hov hmodmaj hmmaj
    unfold add_modifiers
    rw [if_neg (by simp [hov])]
    rw [if_pos (by simp [hmodmaj, hmmaj])]
  · intro t mods diag res h1 h2 h3 hres hdiag hmat
    obtain ⟨k, b, dx, dy, tm, rs, ex⟩ := t
    simp only [HlslType.klass] at hmat
    subst hmat
    subst hres
    simp only [HlslType.modifiers] at h1 h2
    simp only [HlslType.reg_size, HlslType.dimx, HlslType.dimy, HlslType.klass,
      is_row_major, HlslType.modifiers] at h3
    by_cases htm : (tm.row_major || tm.column_major) = true
    · -- the base type already carries a majority: no default is injected
      have hd : (!(mods.overlaps HLSL_MODIFIERS_MAJORITY_MASK)
          && !((HlslType.mk TypeClass.matrix b dx dy tm rs ex).modifiers.overlaps
                HLSL_MODIFIERS_MAJORITY_MASK)
          && decide ((HlslType.mk TypeClass.matrix b dx dy tm rs ex).klass
                = TypeClass.matrix)) = false := by
        simp [HlslType.modifiers, HlslType.klass, overlaps_majority_mask, htm]
      by_cases hty : mods.overlaps HLSL_TYPE_MODIFIERS_MASK = true
      · -- clone path with a zero default majority
        rw [apply_type_modifiers_clone_zero _ _ _ hd hty] at hdiag ⊢
        simp only [HlslType.modifiers] at hdiag ⊢
        obtain ⟨hm1, _, hmm⟩ := add_modifiers_no_error tm mods diag hdiag
        have hmodmaj : (mods.row_major || mods.column_major) = false := by
          rcases Bool.and_eq_false_iff.mp hmm with h | h
          · rwa [overlaps_majority_mask] at h
          · rw [overlaps_majority_mask] at h
            rw [h] at htm
            cases htm
        obtain ⟨hmr, hmc⟩ := Bool.or_eq_false_iff.mp hmodmaj
        rw [hm1]
        simp only [HlslType.withModifiers, HlslType.klass, if_pos rfl,
          HlslType.withRegSize, is_row_major, HlslType.modifiers, Modifiers.union,
          HlslType.dimx, HlslType.dimy, HlslType.reg_size, hmr, hmc, Bool.or_false]
        refine ⟨bool_xor_of_distinct _ _ h1 htm, rfl, fun hc _ => ?_⟩
        rw [hc] at htm
        cases htm
      · -- early return: the type is used unchanged
        have hty2 : mods.overlaps HLSL_TYPE_MODIFIERS_MASK = false :=
          Bool.eq_false_iff.mpr hty
        rw [apply_type_modifiers_early _ _ _ hd hty2]
        simp only [HlslType.modifiers, HlslType.reg_size, HlslType.dimx, HlslType.dimy,
          is_row_major]
        refine ⟨bool_xor_of_distinct _ _ h1 htm, h3 trivial htm, fun hc _ => ?_⟩
        rw [hc] at htm
        cases htm
    · -- the base type carries no majority
      have htm2 : (tm.row_major || tm.column_major) = false := Bool.eq_false_iff.mpr htm
      obtain ⟨htr, htc⟩ := Bool.or_eq_false_iff.mp htm2
      by_cases hmm : (mods.row_major || mods.column_major) = true
      · -- the declaration specifies the majority
        have hd : (!(mods.overlaps HLSL_MODIFIERS_MAJORITY_MASK)
            && !((HlslType.mk TypeClass.matrix b dx dy tm rs ex).modifiers.overlaps
                  HLSL_MODIFIERS_MAJORITY_MASK)
            && decide ((HlslType.mk TypeClass.matrix b dx dy tm rs ex).klass
                  = TypeClass.matrix)) = false := by
          simp [overlaps_majority_mask, hmm]
        have hty : mods.overlaps HLSL_TYPE_MODIFIERS_MASK = true := by
          rw [overlaps_type_modifiers_mask]
          rcases Bool.or_eq_true_iff.mp hmm with h | h <;> simp [h]
        rw [apply_type_modifiers_clone_zero _ _ _ hd hty] at hdiag ⊢
        simp only [HlslType.modifiers] at hdiag ⊢
        obtain ⟨hm1, _, _⟩ := add_modifiers_no_error tm mods diag hdiag
        rw [hm1]
        simp only [HlslType.withModifiers, HlslType.klass, if_pos rfl,
          HlslType.withRegSize, is_row_major, HlslType.modifiers, Modifiers.union,
          HlslType.dimx, HlslType.dimy, HlslType.reg_size, htr, htc, Bool.false_or]
        refine ⟨bool_xor_of_distinct _ _ h2 hmm, rfl, fun _ hc => ?_⟩
        rw [hc] at hmm
        cases hmm
      · -- neither specifies a majority: the column-major default is injected
        have hmm2 : (mods.row_major || mods.column_major) = false := Bool.eq_false_iff.mpr hmm
        obtain ⟨hmr, hmc⟩ := Bool.or_eq_false_iff.mp hmm2
        have hd : (!(mods.overlaps HLSL_MODIFIERS_MAJORITY_MASK)
            && !((HlslType.mk TypeClass.matrix b dx dy tm rs ex).modifiers.overlaps
                  HLSL_MODIFIERS_MAJORITY_MASK)
            && decide ((HlslType.mk TypeClass.matrix b dx dy tm rs ex).klass
                  = TypeClass.matrix)) = true := by
          simp [HlslType.modifiers, HlslType.klass, overlaps_majority_mask, htm2, hmm2]
        rw [apply_type_modifiers_default_col _ _ _ hd] at hdiag ⊢
        simp only [HlslType.modifiers] at hdiag ⊢
        obtain ⟨hm1, _, _⟩ :=
          add_modifiers_no_error (tm.union HLSL_MODIFIER_COLUMN_MAJOR) mods diag hdiag
        rw [hm1]
        simp only [HlslType.withModifiers, HlslType.klass, if_pos rfl,
          HlslType.withRegSize, is_row_major, HlslType.modifiers, Modifiers.union,
          HLSL_MODIFIER_COLUMN_MAJOR, HlslType.dimx, HlslType.dimy, HlslType.reg_size,
          htr, htc, hmr, hmc, Bool.or_false, Bool.or_true, Bool.false_or]
        exact ⟨rfl, rfl, fun _ _ => rfl⟩

/-- Witness for C6: adding column_major onto a row_major set errors; a
bare float4x4 declaration under the column-major default yields a
column-major matrix with reg_size = dimx = 4. -/
theorem matrix_majority_invariant_witness :
    add_modifiers HLSL_MODIFIER_ROW_MAJOR HLSL_MODIFIER_COLUMN_MAJOR []
      = (HLSL_MODIFIER_ROW_MAJOR,
         [(HlslErrorLevel.error, "more than one matrix majority keyword")])
    ∧ (((apply_type_modifiers (new_hlsl_type TypeClass.matrix BaseType.float 4 4)
          Modifiers.zero MatrixMajority.HLSL_COLUMN_MAJOR []).1.modifiers.row_major
        ^^ (apply_type_modifiers (new_hlsl_type TypeClass.matrix BaseType.float 4 4)
          Modifiers.zero MatrixMajority.HLSL_COLUMN_MAJOR []).1.modifiers.column_major) = true
      ∧ (apply_type_modifiers (new_hlsl_type TypeClass.matrix BaseType.float 4 4)
          Modifiers.zero MatrixMajority.HLSL_COLUMN_MAJOR []).1.reg_size
        = (if is_row_major (apply_type_modifiers
              (new_hlsl_type TypeClass.matrix BaseType.float 4 4)
              Modifiers.zero MatrixMajority.HLSL_COLUMN_MAJOR []).1 = true
           then (apply_type_modifiers (new_hlsl_type TypeClass.matrix BaseType.float 4 4)
              Modifiers.zero MatrixMajority.HLSL_COLUMN_MAJOR []).1.dimy
           else (apply_type_modifiers (new_hlsl_type TypeClass.matrix BaseType.float 4 4)
              Modifiers.zero MatrixMajority.HLSL_COLUMN_MAJOR []).1.dimx)
      ∧ (apply_type_modifiers (new_hlsl_type TypeClass.matrix BaseType.float 4 4)
          Modifiers.zero MatrixMajority.HLSL_COLUMN_MAJOR []).1.modifiers.column_major
          = true) := by
  constructor
  · exact matrix_majority_invariant.1 HLSL_MODIFIER_ROW_MAJOR HLSL_MODIFIER_COLUMN_MAJOR []
      (by decide) (by decide) (by decide)
  · have h := matrix_majority_invariant.2 (new_hlsl_type TypeClass.matrix BaseType.float 4 4)
      Modifiers.zero []
      (apply_type_modifiers (new_hlsl_type TypeClass.matrix BaseType.float 4 4)
        Modifiers.zero MatrixMajority.HLSL_COLUMN_MAJOR [])
      (by decide) (by decide) (by decide) rfl (by decide) (by decide)
    exact ⟨h.1, h.2.1, h.2.2 (by decide) (by decide)⟩

/-! ## C1: the instruction indexer -/

theorem range'_append_one (s m n : Nat) :
    List.range' s m ++ List.range' (s + m) n = List.range' s (m + n) := by
  have h := List.range'_append s m n 1
  rw [Nat.one_mul] at h
  rw [Nat.add_comm m n]
  exact h

mutual
theorem index_instructions_size (l : InstrList) (n : Nat) :
    sizeL (index_instructions l n).1 = sizeL l := by
  cases l with
  | nil => rfl
  | cons h t =>
    simp only [index_instructions, sizeL, index_one_instruction_size h n,
      index_instructions_size t]

theorem index_one_instruction_size (x : Node) (n : Nat) :
    sizeN (index_one_instruction x n).1 = sizeN x := by
  cases x with
  | ifNode id i c t e =>
    simp only [index_one_instruction, sizeN, index_instructions_size t,
      index_optional_size e]
  | loop id i b ni =>
    simp only [index_one_instruction, sizeN, index_instructions_size b]
  | assignment id i lhs rhs => rfl
  | constant id i => rfl
  | constructorNode id i args => rfl
  | derefNode id i src => rfl
  | exprNode id i op o1 o2 o3 => rfl
  | jump id i jt rv => rfl
  | swizzleNode id i v => rfl

theorem index_optional_size (e : OptInstrList) (n : Nat) :
    sizeO (index_optional e n).1 = sizeO e := by
  cases e with
  | none => rfl
  | some l => simp only [index_optional, sizeO, index_instructions_size l]
end

mutual
theorem index_instructions_final (l : InstrList) (n : Nat) :
    (index_instructions l n).2 = n + sizeL l := by
  cases l with
  | nil => simp [index_instructions, sizeL]
  | cons h t =>
    simp only [index_instructions, index_instructions_final t,
      index_one_instruction_final h, sizeL]
    omega

theorem index_one_instruction_final (x : Node) (n : Nat) :
    (index_one_instruction x n).2 = n + sizeN x := by
  cases x with
  | ifNode id i c t e =>
    simp only [index_one_instruction, index_instructions_final t,
      index_optional_final e, sizeN]
    omega
  | loop id i b ni =>
    simp only [index_one_instruction, index_instructions_final b, sizeN]
    omega
  | assignment id i lhs rhs => simp [index_one_instruction, sizeN]
  | constant id i => simp [index_one_instruction, sizeN]
  | constructorNode id i args => simp [index_one_instruction, sizeN]
  | derefNode id i src => simp [index_one_instruction, sizeN]
  | exprNode id i op o1 o2 o3 => simp [index_one_instruction, sizeN]
  | jump id i jt rv => simp [index_one_instruction, sizeN]
  | swizzleNode id i v => simp [index_one_instruction, sizeN]

theorem index_optional_final (e : OptInstrList) (n : Nat) :
    (index_optional e n).2 = n + sizeO e := by
  cases e with
  | none => simp [index_optional, sizeO]
  | some l => simp only [index_optional, index_instructions_final l, sizeO]
end

mutual
theorem index_instructions_preIdx (l : InstrList) (n : Nat) :
    preIdx (index_instructions l n).1 = List.range' n (sizeL l) := by
  cases l with
  | nil => rfl
  | cons h t =>
    simp only [index_instructions, preIdx, index_one_instruction_preIdx h n,
      index_instructions_preIdx t, index_one_instruction_final h, sizeL]
    exact range'_append_one n (sizeN h) (sizeL t)

theorem index_one_instruction_preIdx (x : Node) (n : Nat) :
    preIdxN (index_one_instruction x n).1 = List.range' n (sizeN x) := by
  cases x with
  | ifNode id i c t e =>
    simp only [index_one_instruction, preIdxN, index_instructions_preIdx t,
      index_optional_preIdx e, index_instructions_final t, sizeN]
    rw [range'_append_one (n + 1) (sizeL t) (sizeO e)]
    rw [show 1 + sizeL t + sizeO e = (sizeL t + sizeO e) + 1 by omega]
    rw [List.range'_succ]
  | loop id i b ni =>
    simp only [index_one_instruction, preIdxN, index_instructions_preIdx b, sizeN]
    rw [show 1 + sizeL b = sizeL b + 1 by omega]
    rw [List.range'_succ]
  | assignment id i lhs rhs => rfl
  | constant id i => rfl
  | constructorNode id i args => rfl
  | derefNode id i src => rfl
  | exprNode id i op o1 o2 o3 => rfl
  | jump id i jt rv => rfl
  | swizzleNode id i v => rfl

theorem index_optional_preIdx (e : OptInstrList) (n : Nat) :
    preIdxO (index_optional e n).1 = List.range' n (sizeO e) := by
  cases e with
  | none => rfl
  | some l => simp only [index_optional, preIdxO, index_instructions_preIdx l, sizeO]
end

mutual
theorem index_instructions_loops_ok (l : InstrList) (n : Nat) :
    loops_ok (index_instructions l n).1 = true := by
  cases l with
  | nil => rfl
  | cons h t =>
    simp only [index_instructions, loops_ok, Bool.and_eq_true]
    exact ⟨index_one_instruction_loops_ok h n, index_instructions_loops_ok t _⟩

theorem index_one_instruction_loops_ok (x : Node) (n : Nat) :
    loops_ok_node (index_one_instruction x n).1 = true := by
  cases x with
  | ifNode id i c t e =>
    simp only [index_one_instruction, loops_ok_node, Bool.and_eq_true]
    exact ⟨index_instructions_loops_ok t _, index_optional_loops_ok e _⟩
  | loop id i b ni =>
    simp only [index_one_instruction, loops_ok_node, Bool.and_eq_true]
    refine ⟨⟨?_, ?_⟩, index_instructions_loops_ok b _⟩
    · simp [index_instructions_final b, index_instructions_size b]
    · rw [List.all_eq_true]
      intro j hj
      rw [index_instructions_preIdx b] at hj
      have hm := (List.mem_range'_1.mp hj)
      rw [index_instructions_final b]
      simp only [decide_eq_true_eq]
      omega
  | assignment id i lhs rhs => rfl
  | constant id i => rfl
  | constructorNode id i args => rfl
  | derefNode id i src => rfl
  | exprNode id i op o1 o2 o3 => rfl
  | jump id i jt rv => rfl
  | swizzleNode id i v => rfl

theorem index_optional_loops_ok (e : OptInstrList) (n : Nat) :
    loops_ok_opt (index_optional e n).1 = true := by
  cases e with
  | none => rfl
  | some l => simp only [index_optional, loops_ok_opt, index_instructions_loops_ok l]
end

/-- C1.  After index_instructions runs on the entry body starting at 2,
the indices carried by the instructions, read in traversal order
(descending into if branches and loop bodies), are exactly
2, 3, ..., 1 + total instruction count: unique, strictly increasing,
and all at least 2; and every loop node is annotated with next_index
equal to its own index + 1 + the size of its body — the index assigned
to the first instruction after the loop — which is strictly greater
than every index inside its body (the loops_ok checker). -/
theorem index_instructions_assigns_unique_increasing (body : InstrList) :
    preIdx (index_instructions body 2).1 = List.range' 2 (sizeL body)
    ∧ (preIdx (index_instructions body 2).1).Nodup
    ∧ (preIdx (index_instructions body 2).1).Pairwise (fun a b => a < b)
    ∧ (∀ i ∈ preIdx (index_instructions body 2).1, 2 ≤ i)
    ∧ loops_ok (index_instructions body 2).1 = true := by
  refine ⟨index_instructions_preIdx body 2, ?_, ?_, ?_,
    index_instructions_loops_ok body 2⟩
  · rw [index_instructions_preIdx]
    exact List.nodup_range' 2 (sizeL body)
  · rw [index_instructions_preIdx]
    exact List.pairwise_lt_range' 2 (sizeL body)
  · intro i hi
    rw [index_instructions_preIdx] at hi
    exact (List.mem_range'_1.mp hi).1

/-- Witness for C1 at a concrete two-instruction body with a nested
loop: indices 2, 3, 4 are assigned and the loop annotation checks. -/
theorem index_instructions_assigns_unique_increasing_witness :
    (2 : Nat) ≤ 2
    ∧ loops_ok (index_instructions
        (InstrList.cons (Node.constant 0 0)
          (InstrList.cons
            (Node.loop 1 0 (InstrList.cons (Node.constant 9 0) InstrList.nil) 0)
            InstrList.nil)) 2).1 = true :=
  ⟨(index_instructions_assigns_unique_increasing
      (InstrList.cons (Node.constant 0 0)
        (InstrList.cons
          (Node.loop 1 0 (InstrList.cons (Node.constant 9 0) InstrList.nil) 0)
          InstrList.nil))).2.2.2.1 2 (by decide),
   (index_instructions_assigns_unique_increasing
      (InstrList.cons (Node.constant 0 0)
        (InstrList.cons
          (Node.loop 1 0 (InstrList.cons (Node.constant 9 0) InstrList.nil) 0)
          InstrList.nil))).2.2.2.2⟩

/-! ## C2: liveness extension of variables read inside loops

The liveness walk updates a variable's last_read with
max(instr.index, loop_exit) only in the HLSL_IR_DEREF case; the operand
references of expressions, constructors, swizzles, if conditions and
return values write the plain instruction index into the operand node.
The lemmas below show that the extension-to-loop-exit property
nevertheless holds for variables, because every variable read goes
through a deref instruction. -/

theorem set_args_last_read_varLastRead (args : List NodeId) (st : LiveState) (i : Nat) :
    (set_args_last_read st args i).varLastRead = st.varLastRead := by
  induction args generalizing st with
  | nil => rfl
  | cons a rest ih => simp [set_args_last_read, ih]

theorem set_args_last_read_varFirstWrite (args : List NodeId) (st : LiveState) (i : Nat) :
    (set_args_last_read st args i).varFirstWrite = st.varFirstWrite := by
  induction args generalizing st with
  | nil => rfl
  | cons a rest ih => simp [set_args_last_read, ih]

theorem set_args_last_read_not_mem (args : List NodeId) (st : LiveState) (i : Nat)
    (a : NodeId) (h : a ∉ args) :
    (set_args_last_read st args i).nodeLastRead a = st.nodeLastRead a := by
  induction args generalizing st with
  | nil => rfl
  | cons b rest ih =>
    rw [List.mem_cons, not_or] at h
    simp only [set_args_last_read]
    rw [ih _ h.2]
    simp [updMap, h.1]

theorem set_args_last_read_mem (args : List NodeId) (st : LiveState) (i : Nat)
    (a : NodeId) (h : a ∈ args) :
    (set_args_last_read st args i).nodeLastRead a = i := by
  induction args generalizing st with
  | nil => cases h
  | cons b rest ih =>
    by_cases hr : a ∈ rest
    · exact ih _ hr
    · rcases List.mem_cons.mp h with rfl | hm
      · simp only [set_args_last_read]
        rw [set_args_last_read_not_mem _ _ _ _ hr]
        simp [updMap]
      · exact absurd hm hr

mutual
theorem compute_liveness_recurse_keeps_ll (l : InstrList) (lf ll : Nat)
    (st : LiveState) (v : VarId) (hll : ll ≠ 0) (h : ll ≤ st.varLastRead v) :
    ll ≤ (compute_liveness_recurse l lf ll st).varLastRead v := by
  cases l with
  | nil => exact h
  | cons x t =>
    simp only [compute_liveness_recurse]
    exact compute_liveness_recurse_keeps_ll t lf ll _ v hll
      (liveness_instr_keeps_ll x lf ll st v hll h)

theorem liveness_instr_keeps_ll (x : Node) (lf ll : Nat)
    (st : LiveState) (v : VarId) (hll : ll ≠ 0) (h : ll ≤ st.varLastRead v) :
    ll ≤ (liveness_instr x lf ll st).varLastRead v := by
  cases x with
  | assignment id idx lhs rhs =>
    simp only [liveness_instr]
    split <;> simp [h]
  | constant id idx => exact h
  | constructorNode id idx args =>
    simp only [liveness_instr]
    rw [set_args_last_read_varLastRead]
    exact h
  | derefNode id idx src =>
    simp only [liveness_instr, hll, if_pos, ne_eq, not_false_iff]
    cases src with
    | var w =>
      simp only [updMap]
      split
      · simp [Nat.le_max_right idx ll]
      · exact h
    | array a i =>
      simp only [updMap]
      split
      · simp [Nat.le_max_right idx ll]
      · exact h
    | record r =>
      simp only [updMap]
      split
      · simp [Nat.le_max_right idx ll]
      · exact h
  | exprNode id idx op o1 o2 o3 =>
    simp only [liveness_instr]
    cases o2 <;> cases o3 <;> simp [h]
  | ifNode id idx c t e =>
    simp only [liveness_instr]
    exact liveness_optional_keeps_ll e lf ll _ v hll
      (compute_liveness_recurse_keeps_ll t lf ll st v hll h)
  | jump id idx jt rv =>
    simp only [liveness_instr]
    cases jt <;> cases rv <;> simp [h]
  | loop id idx b ni =>
    simp only [liveness_instr, hll, if_pos, ne_eq, not_false_iff]
    exact compute_liveness_recurse_keeps_ll b _ ll st v hll h
  | swizzleNode id idx val =>
    simp only [liveness_instr]
    exact h

theorem liveness_optional_keeps_ll (e : OptInstrList) (lf ll : Nat)
    (st : LiveState) (v : VarId) (hll : ll ≠ 0) (h : ll ≤ st.varLastRead v) :
    ll ≤ (liveness_optional e lf ll st).varLastRead v := by
  cases e with
  | none => exact h
  | some l => exact compute_liveness_recurse_keeps_ll l lf ll st v hll h
end

mutual
theorem compute_liveness_recurse_establishes_ll (l : InstrList) (lf ll : Nat)
    (st : LiveState) (v : VarId) (hll : ll ≠ 0)
    (hd : deref_of_var_in v l = true) :
    ll ≤ (compute_liveness_recurse l lf ll st).varLastRead v := by
  cases l with
  | nil => cases hd
  | cons x t =>
    simp only [compute_liveness_recurse]
    rcases Bool.or_eq_true_iff.mp hd with hx | ht
    · exact compute_liveness_recurse_keeps_ll t lf ll _ v hll
        (liveness_instr_establishes_ll x lf ll st v hll hx)
    · exact compute_liveness_recurse_establishes_ll t lf ll _ v hll ht

theorem liveness_instr_establishes_ll (x : Node) (lf ll : Nat)
    (st : LiveState) (v : VarId) (hll : ll ≠ 0)
    (hd : deref_of_var_in_node v x = true) :
    ll ≤ (liveness_instr x lf ll st).varLastRead v := by
  cases x with
  | derefNode id idx src =>
    simp only [deref_of_var_in_node, decide_eq_true_eq] at hd
    simp only [liveness_instr, hll, if_pos, ne_eq, not_false_iff]
    cases src with
    | var w =>
      simp only [hlsl_var_from_deref] at hd
      simp [updMap, hlsl_var_from_deref, hd, Nat.le_max_right idx ll]
    | array a i =>
      simp only [updMap, hd]
      simp [Nat.le_max_right idx ll]
    | record r =>
      simp only [updMap, hd]
      simp [Nat.le_max_right idx ll]
  | ifNode id idx c t e =>
    simp only [deref_of_var_in_node] at hd
    simp only [liveness_instr]
    rcases Bool.or_eq_true_iff.mp hd with ht | he
    · exact liveness_optional_keeps_ll e lf ll _ v hll
        (compute_liveness_recurse_establishes_ll t lf ll st v hll ht)
    · exact liveness_optional_establishes_ll e lf ll _ v hll he
  | loop id idx b ni =>
    simp only [deref_of_var_in_node] at hd
    simp only [liveness_instr, hll, if_pos, ne_eq, not_false_iff]
    exact compute_liveness_recurse_establishes_ll b _ ll st v hll hd
  | assignment id idx lhs rhs => cases hd
  | constant id idx => cases hd
  | constructorNode id idx args => cases hd
  | exprNode id idx op o1 o2 o3 => cases hd
  | jump id idx jt rv => cases hd
  | swizzleNode id idx val => cases hd

theorem liveness_optional_establishes_ll (e : OptInstrList) (lf ll : Nat)
    (st : LiveState) (v : VarId) (hll : ll ≠ 0)
    (hd : deref_of_var_in_opt v e = true) :
    ll ≤ (liveness_optional e lf ll st).varLastRead v := by
  cases e with
  | none => cases hd
  | some l => exact compute_liveness_recurse_establishes_ll l lf ll st v hll hd
end

mutual
theorem check_indexed_mono (l : InstrList) (n m : Nat)
    (h : check_indexed l n = Option.some m) : n ≤ m := by
  cases l with
  | nil =>
    simp only [check_indexed, Option.some.injEq] at h
    omega
  | cons x t =>
    simp only [check_indexed] at h
    cases hc : check_node x n with
    | none => rw [hc] at h; cases h
    | some k =>
      rw [hc] at h
      have h1 := check_node_mono x n k hc
      have h2 := check_indexed_mono t k m h
      omega

theorem check_node_mono (x : Node) (n m : Nat)
    (h : check_node x n = Option.some m) : n + 1 ≤ m := by
  cases x with
  | ifNode id i c t e =>
    simp only [check_node] at h
    split at h
    · cases hc : check_indexed t (n + 1) with
      | none => rw [hc] at h; cases h
      | some m1 =>
        rw [hc] at h
        have h1 := check_indexed_mono t (n + 1) m1 hc
        have h2 := check_opt_mono e m1 m h
        omega
    · cases h
  | loop id i b ni =>
    simp only [check_node] at h
    split at h
    · cases hc : check_indexed b (n + 1) with
      | none => rw [hc] at h; cases h
      | some mb =>
        simp only [hc] at h
        have h1 := check_indexed_mono b (n + 1) mb hc
        by_cases hni : ni = mb
        · rw [if_pos hni] at h
          cases h
          omega
        · rw [if_neg hni] at h
          cases h
    · cases h
  | assignment id i lhs rhs =>
    simp only [check_node] at h
    split at h
    · cases h; omega
    · cases h
  | constant id i =>
    simp only [check_node] at h
    split at h
    · cases h; omega
    · cases h
  | constructorNode id i args =>
    simp only [check_node] at h
    split at h
    · cases h; omega
    · cases h
  | derefNode id i src =>
    simp only [check_node] at h
    split at h
    · cases h; omega
    · cases h
  | exprNode id i op o1 o2 o3 =>
    simp only [check_node] at h
    split at h
    · cases h; omega
    · cases h
  | jump id i jt rv =>
    simp only [check_node] at h
    split at h
    · cases h; omega
    · cases h
  | swizzleNode id i v =>
    simp only [check_node] at h
    split at h
    · cases h; omega
    · cases h

theorem check_opt_mono (e : OptInstrList) (n m : Nat)
    (h : check_opt e n = Option.some m) : n ≤ m := by
  cases e with
  | none =>
    simp only [check_opt, Option.some.injEq] at h
    omega
  | some l => exact check_indexed_mono l n m h
end

mutual
theorem check_indexed_of_index (l : InstrList) (n : Nat) :
    check_indexed (index_instructions l n).1 n
      = Option.some ((index_instructions l n).2) := by
  cases l with
  | nil => rfl
  | cons x t =>
    simp only [index_instructions, check_indexed]
    rw [check_node_of_index x n]
    exact check_indexed_of_index t (index_one_instruction x n).2

theorem check_node_of_index (x : Node) (n : Nat) :
    check_node (index_one_instruction x n).1 n
      = Option.some ((index_one_instruction x n).2) := by
  cases x with
  | ifNode id i c t e =>
    simp only [index_one_instruction, check_node, if_pos rfl]
    rw [check_indexed_of_index t (n + 1)]
    exact check_opt_of_index e (index_instructions t (n + 1)).2
  | loop id i b ni =>
    simp only [index_one_instruction, check_node, if_pos rfl]
    rw [check_indexed_of_index b (n + 1)]
    simp
  | assignment id i lhs rhs => simp [index_one_instruction, check_node, Node.nodeIndex]
  | constant id i => simp [index_one_instruction, check_node, Node.nodeIndex]
  | constructorNode id i args => simp [index_one_instruction, check_node, Node.nodeIndex]
  | derefNode id i src => simp [index_one_instruction, check_node, Node.nodeIndex]
  | exprNode id i op o1 o2 o3 => simp [index_one_instruction, check_node, Node.nodeIndex]
  | jump id i jt rv => simp [index_one_instruction, check_node, Node.nodeIndex]
  | swizzleNode id i v => simp [index_one_instruction, check_node, Node.nodeIndex]

theorem check_opt_of_index (e : OptInstrList) (n : Nat) :
    check_opt (index_optional e n).1 n
      = Option.some ((index_optional e n).2) := by
  cases e with
  | none => rfl
  | some l =>
    simp only [index_optional, check_opt]
    exact check_indexed_of_index l n
end

mutual
theorem compute_liveness_recurse_keeps_checked (l : InstrList) (n m lf ll : Nat)
    (st : LiveState) (v : VarId) (B : Nat)
    (hc : check_indexed l n = Option.some m) (hB : B ≤ n)
    (h : B ≤ st.varLastRead v) :
    B ≤ (compute_liveness_recurse l lf ll st).varLastRead v := by
  cases l with
  | nil => exact h
  | cons x t =>
    simp only [check_indexed] at hc
    cases hk : check_node x n with
    | none => rw [hk] at hc; cases hc
    | some k =>
      rw [hk] at hc
      simp only [compute_liveness_recurse]
      have hk1 := check_node_mono x n k hk
      exact compute_liveness_recurse_keeps_checked t k m lf ll _ v B hc (by omega)
        (liveness_instr_keeps_checked x n k lf ll st v B hk hB h)

theorem liveness_instr_keeps_checked (x : Node) (n m lf ll : Nat)
    (st : LiveState) (v : VarId) (B : Nat)
    (hc : check_node x n = Option.some m) (hB : B ≤ n)
    (h : B ≤ st.varLastRead v) :
    B ≤ (liveness_instr x lf ll st).varLastRead v := by
  cases x with
  | assignment id idx lhs rhs =>
    simp only [liveness_instr]
    split <;> simp [h]
  | constant id idx => exact h
  | constructorNode id idx args =>
    simp only [liveness_instr]
    rw [set_args_last_read_varLastRead]
    exact h
  | derefNode id idx src =>
    have hidx : idx = n := by
      simp only [check_node, Node.nodeIndex] at hc
      split at hc
      · assumption
      · cases hc
    subst hidx
    simp only [liveness_instr]
    have hval : B ≤ (if ll ≠ 0 then max idx ll else idx) := by
      split <;> omega
    cases src with
    | var w =>
      simp only [updMap]
      split
      · exact hval
      · exact h
    | array a i =>
      simp only [updMap]
      split
      · exact hval
      · exact h
    | record r =>
      simp only [updMap]
      split
      · exact hval
      · exact h
  | exprNode id idx op o1 o2 o3 =>
    simp only [liveness_instr]
    cases o2 <;> cases o3 <;> simp [h]
  | ifNode id idx c t e =>
    simp only [check_node] at hc
    split at hc
    · cases h1 : check_indexed t (n + 1) with
      | none => rw [h1] at hc; cases hc
      | some m1 =>
        rw [h1] at hc
        simp only [liveness_instr]
        have hm1 := check_indexed_mono t (n + 1) m1 h1
        exact liveness_optional_keeps_checked e m1 m lf ll _ v B hc (by omega)
          (compute_liveness_recurse_keeps_checked t (n + 1) m1 lf ll st v B h1
            (by omega) h)
    · cases hc
  | jump id idx jt rv =>
    simp only [liveness_instr]
    cases jt <;> cases rv <;> simp [h]
  | loop id idx b ni =>
    simp only [check_node] at hc
    split at hc
    · cases h1 : check_indexed b (n + 1) with
      | none => rw [h1] at hc; cases hc
      | some mb =>
        rw [h1] at hc
        simp only [liveness_instr]
        exact compute_liveness_recurse_keeps_checked b (n + 1) mb _ _ st v B h1
          (by omega) h
    · cases hc
  | swizzleNode id idx val =>
    simp only [liveness_instr]
    exact h

theorem liveness_optional_keeps_checked (e : OptInstrList) (n m lf ll : Nat)
    (st : LiveState) (v : VarId) (B : Nat)
    (hc : check_opt e n = Option.some m) (hB : B ≤ n)
    (h : B ≤ st.varLastRead v) :
    B ≤ (liveness_optional e lf ll st).varLastRead v := by
  cases e with
  | none => exact h
  | some l => exact compute_liveness_recurse_keeps_checked l n m lf ll st v B hc hB h
end

mutual
theorem loop_deref_witness_le (l : InstrList) (n m : Nat) (v e : Nat)
    (hc : check_indexed l n = Option.some m)
    (hw : loop_deref_witness v e l = true) : e ≤ m := by
  cases l with
  | nil => cases hw
  | cons x t =>
    simp only [check_indexed] at hc
    cases hk : check_node x n with
    | none => rw [hk] at hc; cases hc
    | some k =>
      rw [hk] at hc
      simp only [loop_deref_witness] at hw
      have hkm := check_indexed_mono t k m hc
      rcases Bool.or_eq_true_iff.mp hw with hx | ht
      · have := loop_deref_witness_node_le x n k v e hk hx
        omega
      · exact loop_deref_witness_le t k m v e hc ht

theorem loop_deref_witness_node_le (x : Node) (n m : Nat) (v e : Nat)
    (hc : check_node x n = Option.some m)
    (hw : loop_deref_witness_node v e x = true) : e ≤ m := by
  cases x with
  | ifNode id i c t el =>
    simp only [check_node] at hc
    split at hc
    · cases h1 : check_indexed t (n + 1) with
      | none => rw [h1] at hc; cases hc
      | some m1 =>
        rw [h1] at hc
        simp only [loop_deref_witness_node] at hw
        have hm := check_opt_mono el m1 m hc
        rcases Bool.or_eq_true_iff.mp hw with ht | he
        · have := loop_deref_witness_le t (n + 1) m1 v e h1 ht
          omega
        · exact loop_deref_witness_opt_le el m1 m v e hc he
    · cases hc
  | loop id i b ni =>
    simp only [check_node] at hc
    split at hc
    · cases h1 : check_indexed b (n + 1) with
      | none => rw [h1] at hc; cases hc
      | some mb =>
        simp only [h1] at hc
        by_cases hni : ni = mb
        · rw [if_pos hni] at hc
          cases hc
          simp only [loop_deref_witness_node] at hw
          rcases Bool.or_eq_true_iff.mp hw with hloop | hdeep
          · have : ni = e := by
              rcases Bool.and_eq_true_iff.mp hloop with ⟨h2, _⟩
              exact decide_eq_true_eq.mp h2
            omega
          · have := loop_deref_witness_le b (n + 1) m v e h1 hdeep
            omega
        · rw [if_neg hni] at hc
          cases hc
    · cases hc
  | assignment id i lhs rhs => cases hw
  | constant id i => cases hw
  | constructorNode id i args => cases hw
  | derefNode id i src => cases hw
  | exprNode id i op o1 o2 o3 => cases hw
  | jump id i jt rv => cases hw
  | swizzleNode id i vv => cases hw

theorem loop_deref_witness_opt_le (el : OptInstrList) (n m : Nat) (v e : Nat)
    (hc : check_opt el n = Option.some m)
    (hw : loop_deref_witness_opt v e el = true) : e ≤ m := by
  cases el with
  | none => cases hw
  | some l => exact loop_deref_witness_le l n m v e hc hw
end

mutual
theorem loop_deref_witness_implies_deref (l : InstrList) (v e : Nat)
    (hw : loop_deref_witness v e l = true) : deref_of_var_in v l = true := by
  cases l with
  | nil => cases hw
  | cons x t =>
    simp only [loop_deref_witness] at hw
    simp only [deref_of_var_in]
    rcases Bool.or_eq_true_iff.mp hw with hx | ht
    · rw [loop_deref_witness_node_implies_deref x v e hx]
      rfl
    · rw [loop_deref_witness_implies_deref t v e ht]
      simp

theorem loop_deref_witness_node_implies_deref (x : Node) (v e : Nat)
    (hw : loop_deref_witness_node v e x = true) :
    deref_of_var_in_node v x = true := by
  cases x with
  | ifNode id i c t el =>
    simp only [loop_deref_witness_node] at hw
    simp only [deref_of_var_in_node]
    rcases Bool.or_eq_true_iff.mp hw with ht | he
    · rw [loop_deref_witness_implies_deref t v e ht]
      rfl
    · rw [loop_deref_witness_opt_implies_deref el v e he]
      simp
  | loop id i b ni =>
    simp only [loop_deref_witness_node] at hw
    simp only [deref_of_var_in_node]
    rcases Bool.or_eq_true_iff.mp hw with hloop | hdeep
    · exact (Bool.and_eq_true_iff.mp hloop).2
    · exact loop_deref_witness_implies_deref b v e hdeep
  | assignment id i lhs rhs => cases hw
  | constant id i => cases hw
  | constructorNode id i args => cases hw
  | derefNode id i src => cases hw
  | exprNode id i op o1 o2 o3 => cases hw
  | jump id i jt rv => cases hw
  | swizzleNode id i vv => cases hw

theorem loop_deref_witness_opt_implies_deref (el : OptInstrList) (v e : Nat)
    (hw : loop_deref_witness_opt v e el = true) :
    deref_of_var_in_opt v el = true := by
  cases el with
  | none => cases hw
  | some l => exact loop_deref_witness_implies_deref l v e hw
end

mutual
theorem compute_liveness_recurse_loop_witness (l : InstrList) (n m lf : Nat)
    (st : LiveState) (v e : Nat)
    (hc : check_indexed l n = Option.some m) (hn : 1 ≤ n)
    (hw : loop_deref_witness v e l = true) :
    e ≤ (compute_liveness_recurse l lf 0 st).varLastRead v := by
  cases l with
  | nil => cases hw
  | cons x t =>
    simp only [check_indexed] at hc
    cases hk : check_node x n with
    | none => rw [hk] at hc; cases hc
    | some k =>
      rw [hk] at hc
      simp only [loop_deref_witness] at hw
      simp only [compute_liveness_recurse]
      have hk1 := check_node_mono x n k hk
      rcases Bool.or_eq_true_iff.mp hw with hx | ht
      · have hstep := liveness_instr_loop_witness x n k lf st v e hk hn hx
        have hek := loop_deref_witness_node_le x n k v e hk hx
        exact compute_liveness_recurse_keeps_checked t k m lf 0 _ v e hc hek hstep
      · exact compute_liveness_recurse_loop_witness t k m lf _ v e hc (by omega) ht

theorem liveness_instr_loop_witness (x : Node) (n m lf : Nat)
    (st : LiveState) (v e : Nat)
    (hc : check_node x n = Option.some m) (hn : 1 ≤ n)
    (hw : loop_deref_witness_node v e x = true) :
    e ≤ (liveness_instr x lf 0 st).varLastRead v := by
  cases x with
  | ifNode id idx c t el =>
    simp only [check_node] at hc
    split at hc
    · cases h1 : check_indexed t (n + 1) with
      | none => rw [h1] at hc; cases hc
      | some m1 =>
        rw [h1] at hc
        simp only [loop_deref_witness_node] at hw
        simp only [liveness_instr]
        have hm1 := check_indexed_mono t (n + 1) m1 h1
        rcases Bool.or_eq_true_iff.mp hw with ht | he
        · have hstep := compute_liveness_recurse_loop_witness t (n + 1) m1 lf st v e h1
            (by omega) ht
          have hem1 := loop_deref_witness_le t (n + 1) m1 v e h1 ht
          exact liveness_optional_keeps_checked el m1 m lf 0 _ v e hc hem1 hstep
        · exact liveness_optional_loop_witness el m1 m lf _ v e hc (by omega) he
    · cases hc
  | loop id idx b ni =>
    simp only [check_node] at hc
    split at hc
    · cases h1 : check_indexed b (n + 1) with
      | none => rw [h1] at hc; cases hc
      | some mb =>
        simp only [h1] at hc
        by_cases hni : ni = mb
        · rw [if_pos hni] at hc
          cases hc
          simp only [loop_deref_witness_node] at hw
          simp only [liveness_instr]
          rw [if_neg (by omega : ¬((0 : Nat) ≠ 0))]
          have hmb := check_indexed_mono b (n + 1) m h1
          have hni0 : ni ≠ 0 := by omega
          rcases Bool.or_eq_true_iff.mp hw with hloop | hdeep
          · rcases Bool.and_eq_true_iff.mp hloop with ⟨h2, hd⟩
            have hnie : ni = e := decide_eq_true_eq.mp h2
            rw [← hnie]
            exact compute_liveness_recurse_establishes_ll b _ ni st v hni0 hd
          · have hd := loop_deref_witness_implies_deref b v e hdeep
            have hest := compute_liveness_recurse_establishes_ll b
              (if lf ≠ 0 then lf else idx) ni st v hni0 hd
            have hem := loop_deref_witness_le b (n + 1) m v e h1 hdeep
            omega
        · rw [if_neg hni] at hc
          cases hc
    · cases hc
  | assignment id idx lhs rhs => cases hw
  | constant id idx => cases hw
  | constructorNode id idx args => cases hw
  | derefNode id idx src => cases hw
  | exprNode id idx op o1 o2 o3 => cases hw
  | jump id idx jt rv => cases hw
  | swizzleNode id idx vv => cases hw

theorem liveness_optional_loop_witness (el : OptInstrList) (n m lf : Nat)
    (st : LiveState) (v e : Nat)
    (hc : check_opt el n = Option.some m) (hn : 1 ≤ n)
    (hw : loop_deref_witness_opt v e el = true) :
    e ≤ (liveness_optional el lf 0 st).varLastRead v := by
  cases el with
  | none => cases hw
  | some l => exact compute_liveness_recurse_loop_witness l n m lf st v e hc hn hw
end

/-- C2 (amended).  During the liveness pass, a variable deref updates
the underlying variable's last_read to max(instr.index, loop_exit) when
inside a loop and to instr.index otherwise; the other references —
operands of expressions, constructors and swizzles, if conditions,
return values — set the referenced node's last_read to the plain
instr.index with no loop extension (anonymous nodes cannot be used
across iterations).  Consequently, on an indexed entry body, a variable
dereferenced anywhere inside a loop ends the pass with last_read at
least that loop's next_index. -/
theorem compute_liveness_extends_variable_reads_to_loop_exit
    (p : InstrList) (st : LiveState) (v e : Nat)
    (hw : loop_deref_witness v e (index_instructions p 2).1 = true) :
    (∀ (id idx : Nat) (src : Deref) (lf ll : Nat) (s : LiveState),
      (liveness_instr (Node.derefNode id idx src) lf ll s).varLastRead
          (hlsl_var_from_deref src)
        = (if ll ≠ 0 then max idx ll else idx))
    ∧ (∀ (id idx : Nat) (op : ExprOp) (o1 : NodeId) (o2 o3 : Option NodeId)
        (lf ll : Nat) (s : LiveState),
      (liveness_instr (Node.exprNode id idx op o1 o2 o3) lf ll s).nodeLastRead o1 = idx)
    ∧ (∀ (id idx val lf ll : Nat) (s : LiveState),
      (liveness_instr (Node.swizzleNode id idx val) lf ll s).nodeLastRead val = idx)
    ∧ (∀ (id idx c : Nat) (t : InstrList) (el : OptInstrList) (lf ll : Nat)
        (s : LiveState),
      (liveness_instr (Node.ifNode id idx c t el) lf ll s).nodeLastRead c = idx)
    ∧ (∀ (id idx r lf ll : Nat) (s : LiveState),
      (liveness_instr (Node.jump id idx JumpType.HLSL_IR_JUMP_RETURN (Option.some r))
          lf ll s).nodeLastRead r = idx)
    ∧ (∀ (id idx : Nat) (args : List NodeId) (a : NodeId) (lf ll : Nat)
        (s : LiveState), a ∈ args →
      (liveness_instr (Node.constructorNode id idx args) lf ll s).nodeLastRead a = idx)
    ∧ e ≤ (compute_liveness_recurse (index_instructions p 2).1 0 0 st).varLastRead v := by
  refine ⟨?_, ?_, ?_, ?_, ?_, ?_, ?_⟩
  · intro id idx src lf ll s
    cases src <;> simp [liveness_instr, updMap, hlsl_var_from_deref]
  · intro id idx op o1 o2 o3 lf ll s
    cases o2 <;> cases o3 <;> simp only [liveness_instr, updMap] <;>
      split_ifs <;> simp_all
  · intro id idx val lf ll s
    simp [liveness_instr, updMap]
  · intro id idx c t el lf ll s
    simp [liveness_instr, updMap]
  · intro id idx r lf ll s
    simp [liveness_instr, updMap]
  · intro id idx args a lf ll s h
    simp only [liveness_instr]
    exact set_args_last_read_mem args s idx a h
  · exact compute_liveness_recurse_loop_witness (index_instructions p 2).1 2
      (index_instructions p 2).2 0 st v e (check_indexed_of_index p 2) (by omega) hw

/-- Witness for C2 (amended) on a concrete entry body: a loop whose
body derefs variable 7; after indexing (loop at 2, deref at 3,
next_index 4) and liveness, variable 7 has last_read at least 4. -/
theorem compute_liveness_extends_variable_reads_witness :
    4 ≤ (compute_liveness_recurse
        (index_instructions
          (InstrList.cons
            (Node.loop 1 0
              (InstrList.cons (Node.derefNode 2 0 (Deref.var 7)) InstrList.nil) 0)
            InstrList.nil) 2).1 0 0 initialLiveState).varLastRead 7 :=
  (compute_liveness_extends_variable_reads_to_loop_exit
    (InstrList.cons
      (Node.loop 1 0
        (InstrList.cons (Node.derefNode 2 0 (Deref.var 7)) InstrList.nil) 0)
      InstrList.nil)
    initialLiveState 7 4 (by decide)).2.2.2.2.2.2

/-- Counterexample to C2 as stated: inside a loop indexed 2..4 with
next_index 5, the expression at index 4 sets the last_read of its
operand node (the constant, id 10) to the plain instruction index 4 and
NOT to max(instr.index, loop_exit) = max 4 5 = 5, refuting the claim
that every reference gets the loop-extended update. -/
theorem compute_liveness_anonymous_operand_not_extended :
    (index_instructions
        (InstrList.cons
          (Node.loop 1 0
            (InstrList.cons (Node.constant 10 0)
              (InstrList.cons
                (Node.exprNode 11 0 (ExprOp.otherOp 0) 10 Option.none Option.none)
                InstrList.nil)) 0)
          InstrList.nil) 2).1
      = InstrList.cons
          (Node.loop 1 2
            (InstrList.cons (Node.constant 10 3)
              (InstrList.cons
                (Node.exprNode 11 4 (ExprOp.otherOp 0) 10 Option.none Option.none)
                InstrList.nil)) 5)
          InstrList.nil
    ∧ (compute_liveness_recurse
        (index_instructions
          (InstrList.cons
            (Node.loop 1 0
              (InstrList.cons (Node.constant 10 0)
                (InstrList.cons
                  (Node.exprNode 11 0 (ExprOp.otherOp 0) 10 Option.none Option.none)
                  InstrList.nil)) 0)
            InstrList.nil) 2).1 0 0 initialLiveState).nodeLastRead 10 = 4
    ∧ max 4 5 = 5
    ∧ (4 : Nat) ≠ 5 := by
  refine ⟨by decide, by decide, by decide, by decide⟩

end HLSLFrontEnd
